import Mathlib

/-!
# Verification development for the global-hub operator and transport pipeline

Shallow embedding of

* `operator/pkg/controllers/status/status_reconciler.go`
  (`needUpdateComponentsStatus`, `setComponentsAvailable`,
  `updateDeploymentComponents`, `updateStatefulsetComponents`,
  `updateRetentionConditions`);
* `operator/pkg/controllers/backup/kafka.go`
  (`AddBackupLabelToKafkaTemplate`, `AddBackupLabelToZookeeperTemplate`,
  `DeleteBackupLabelToKafkaTemplate`, `DeleteBackupLabelToZookeeperTemplate`);
* the producer, consumer and syncer of the bundle pipeline, whose sources are
  not among the files above and are modelled from the specification.

Go maps are association lists with unique keys (`AList`); iteration follows the
order of the entries, and every statement below is phrased through `lookup`, so
it does not depend on that order.  A Go `error` is an `Option String`
(`none` is `nil`).
-/

namespace GlobalHub

/-! ## Status reconciler: data model -/

/-- The type `v1alpha4.StatusCondition`. `LastTransitionTime` is a time stamp. -/
structure StatusCondition where
  Kind : String
  Name : String
  Type_ : String
  Status : String
  Reason : String
  Message : String
  LastTransitionTime : Int
deriving DecidableEq, Repr

/-- The Go type `map[string]v1alpha4.StatusCondition`. -/
abbrev ComponentsStatus := AList (fun _ : String => StatusCondition)

/-- The type `metav1.Condition`; the code under verification only fills the
four string fields, the other two keep their zero value. -/
structure Condition where
  Type_ : String
  Status : String
  Reason : String
  Message : String
  ObservedGeneration : Int := 0
  LastTransitionTime : Int := 0
deriving DecidableEq, Repr

/-- The constants of package `operator/pkg/config` used by the status
reconciler.  Their declarations are outside the verified files, so they are
parameters of the embedding. -/
structure Config where
  COMPONENTS_MANAGER_NAME : String
  COMPONENTS_GRAFANA_NAME : String
  COMPONENTS_INVENTORY_API_NAME : String
  COMPONENTS_POSTGRES_NAME : String
  COMPONENTS_AVAILABLE : String
  CONDITION_STATUS_TRUE : String
  CONDITION_STATUS_FALSE : String
  MINIMUM_REPLICAS_AVAILABLE : String
  MINIMUM_REPLICAS_UNAVAILABLE : String
  CONDITION_TYPE_DATABASE : String
  CONDITION_REASON_RETENTION_PARSED : String
  CONDITION_REASON_RETENTION_PARSED_FAILED : String

/-- How a Go call ends: normally, with a returned error, or with a run-time
panic. -/
inductive GoResult where
  | ok
  | err (msg : String)
  | panic (msg : String)
deriving DecidableEq, Repr

/-- The part of `appsv1.Deployment` that the reconciler reads:
`Name`, `Spec.Replicas` (a `*int32`, `none` is the nil pointer) and
`Status.AvailableReplicas`. -/
structure Deployment where
  Name : String
  Replicas : Option Int
  AvailableReplicas : Int
deriving DecidableEq, Repr

/-- The part of `appsv1.StatefulSet` that the reconciler reads. -/
structure StatefulSet where
  Name : String
  Replicas : Option Int
  AvailableReplicas : Int
deriving DecidableEq, Repr

/-- The part of `v1alpha4.MulticlusterGlobalHub` read by
`updateRetentionConditions`: `Spec.DataLayerSpec.Postgres.Retention` and
`Status.Conditions`. -/
structure MulticlusterGlobalHub where
  Retention : String
  Conditions : List Condition

/-! ## Status reconciler: operations -/

/-- The four fields compared by `needUpdateComponentsStatus`. -/
def sameReported (dcs cur : StatusCondition) : Bool :=
  decide (dcs.Type_ = cur.Type_) && decide (dcs.Reason = cur.Reason) &&
    decide (dcs.Status = cur.Status) && decide (dcs.Message = cur.Message)

/-- One iteration of the second loop of `needUpdateComponentsStatus`. -/
def needUpdateStep (current : ComponentsStatus) (acc : Bool × ComponentsStatus)
    (name : String) (dcs : StatusCondition) : Bool × ComponentsStatus :=
  match current.lookup name with
  | none => (true, acc.2.insert name dcs)
  | some cur =>
    if sameReported dcs cur then (acc.1, acc.2.insert name cur)
    else (true, acc.2.insert name dcs)

/-- The function `needUpdateComponentsStatus`: copy `current`, then walk
`desired`. -/
def needUpdateComponentsStatus (current desired : ComponentsStatus) :
    Bool × ComponentsStatus :=
  let returned : ComponentsStatus :=
    current.foldl (fun acc name status => acc.insert name status) ∅
  desired.foldl (needUpdateStep current) (false, returned)

/-- The function `setComponentsAvailable`; `now` is the value of `time.Now()`. -/
def setComponentsAvailable (cfg : Config) (now : Int) (name resourceType : String)
    (currentReplica desiredReplica : Int) (componentsStatus : ComponentsStatus) :
    ComponentsStatus :=
  if currentReplica = desiredReplica then
    componentsStatus.insert name
      { Kind := resourceType
        Name := name
        Type_ := cfg.COMPONENTS_AVAILABLE
        Status := cfg.CONDITION_STATUS_TRUE
        Reason := cfg.MINIMUM_REPLICAS_AVAILABLE
        Message := "Component " ++ name ++ " have been deployed"
        LastTransitionTime := now }
  else
    componentsStatus.insert name
      { Kind := resourceType
        Name := name
        Type_ := cfg.COMPONENTS_AVAILABLE
        Status := cfg.CONDITION_STATUS_FALSE
        Reason := cfg.MINIMUM_REPLICAS_UNAVAILABLE
        Message := "Component " ++ name ++ " has been deployed but is not ready"
        LastTransitionTime := now }

/-- The loop of `updateDeploymentComponents` from item number `i` on;
`now i` is what `time.Now()` returns in iteration `i`.  Dereferencing a nil
`Spec.Replicas` panics and leaves the map as it is at that point. -/
def deploymentLoop (cfg : Config) (now : Nat → Int) :
    Nat → List Deployment → ComponentsStatus → ComponentsStatus × GoResult
  | _, [], cs => (cs, GoResult.ok)
  | i, deploy :: rest, cs =>
    if deploy.Name ≠ cfg.COMPONENTS_MANAGER_NAME ∧
        deploy.Name ≠ cfg.COMPONENTS_GRAFANA_NAME ∧
        deploy.Name ≠ cfg.COMPONENTS_INVENTORY_API_NAME then
      deploymentLoop cfg now (i + 1) rest cs
    else
      match deploy.Replicas with
      | none => (cs, GoResult.panic "invalid memory address or nil pointer dereference")
      | some replicas =>
        deploymentLoop cfg now (i + 1) rest
          (setComponentsAvailable cfg (now i) deploy.Name "Deployment"
            deploy.AvailableReplicas replicas cs)

/-- The function `updateDeploymentComponents`; `listed` is the outcome of
`c.List` for the namespace. -/
def updateDeploymentComponents (cfg : Config) (now : Nat → Int)
    (listed : Except String (List Deployment)) (componentsStatus : ComponentsStatus) :
    ComponentsStatus × GoResult :=
  match listed with
  | Except.error e => (componentsStatus, GoResult.err e)
  | Except.ok items => deploymentLoop cfg now 0 items componentsStatus

/-- The loop of `updateStatefulsetComponents` from item number `i` on. -/
def statefulsetLoop (cfg : Config) (now : Nat → Int) :
    Nat → List StatefulSet → ComponentsStatus → ComponentsStatus × GoResult
  | _, [], cs => (cs, GoResult.ok)
  | i, statefulset :: rest, cs =>
    if statefulset.Name ≠ cfg.COMPONENTS_POSTGRES_NAME then
      statefulsetLoop cfg now (i + 1) rest cs
    else
      match statefulset.Replicas with
      | none => (cs, GoResult.panic "invalid memory address or nil pointer dereference")
      | some replicas =>
        statefulsetLoop cfg now (i + 1) rest
          (setComponentsAvailable cfg (now i) statefulset.Name "StatefulSet"
            statefulset.AvailableReplicas replicas cs)

/-- The function `updateStatefulsetComponents`. -/
def updateStatefulsetComponents (cfg : Config) (now : Nat → Int)
    (listed : Except String (List StatefulSet)) (componentsStatus : ComponentsStatus) :
    ComponentsStatus × GoResult :=
  match listed with
  | Except.error e => (componentsStatus, GoResult.err e)
  | Except.ok items => statefulsetLoop cfg now 0 items componentsStatus

/-- The verb `%d` of `fmt.Sprintf` on an `int`. -/
def fmtInt (n : Int) : String := toString n

/-- The function `updateRetentionConditions`.  `ParseRetentionMonth`
(package `utils`) and `NeedUpdateConditions` (package `config`) are declared
outside the verified files and are parameters; an error of the parser is its
message. -/
def updateRetentionConditions (cfg : Config)
    (ParseRetentionMonth : String → Except String Int)
    (NeedUpdateConditions : List Condition → Condition → Bool × List Condition)
    (mgh : MulticlusterGlobalHub) : Bool × List Condition :=
  match ParseRetentionMonth mgh.Retention with
  | Except.error err =>
    NeedUpdateConditions mgh.Conditions
      { Type_ := cfg.CONDITION_TYPE_DATABASE
        Status := cfg.CONDITION_STATUS_FALSE
        Reason := cfg.CONDITION_REASON_RETENTION_PARSED_FAILED
        Message := "failed to parse the retention month, err:" ++ err }
  | Except.ok months =>
    let months := if months < 1 then 1 else months
    NeedUpdateConditions mgh.Conditions
      { Type_ := cfg.CONDITION_TYPE_DATABASE
        Status := cfg.CONDITION_STATUS_TRUE
        Reason := cfg.CONDITION_REASON_RETENTION_PARSED
        Message := "The data will be kept in the database for " ++ fmtInt months ++ " months." }

/-- A desired entry forces an update: its name is missing from `current`, or
one of the four reported fields differs. -/
def needsChange (current : ComponentsStatus) (name : String) (dcs : StatusCondition) : Prop :=
  current.lookup name = none ∨
    ∃ cur, current.lookup name = some cur ∧
      (dcs.Type_ ≠ cur.Type_ ∨ dcs.Reason ≠ cur.Reason ∨
        dcs.Status ≠ cur.Status ∨ dcs.Message ≠ cur.Message)

/-! ## Status reconciler: the properties under verification -/

/-- The names whose deployments `updateDeploymentComponents` reports. -/
def trackedDeployment (cfg : Config) (name : String) : Prop :=
  name = cfg.COMPONENTS_MANAGER_NAME ∨ name = cfg.COMPONENTS_GRAFANA_NAME ∨
    name = cfg.COMPONENTS_INVENTORY_API_NAME

/-- An entry reports the replica counts: it has status true with reason
minimum-replicas-available if and only if the available count is the desired
count, and status false with reason minimum-replicas-unavailable otherwise.
The desired count is `none` when `Spec.Replicas` is nil. -/
def ReplicaEntry (cfg : Config) (e : StatusCondition) (available : Int)
    (desired : Option Int) : Prop :=
  ((e.Status = cfg.CONDITION_STATUS_TRUE ∧ e.Reason = cfg.MINIMUM_REPLICAS_AVAILABLE) ↔
    some available = desired) ∧
  (some available ≠ desired →
    e.Status = cfg.CONDITION_STATUS_FALSE ∧ e.Reason = cfg.MINIMUM_REPLICAS_UNAVAILABLE)

/-- The behaviour of `updateDeploymentComponents` on a list of deployments:
it returns normally, the map changes only at the names of tracked deployments
of the list, and every tracked deployment of the list has an entry that
reports its replica counts.  The loop writes one entry per name, so where a
name occurs more than once the entry is that of its last occurrence: the
deployment `d` is taken at a position of the list after which its name does
not occur again. -/
def DeploymentComponentsProperty (cfg : Config) (now : Nat → Int)
    (items : List Deployment) (cs : ComponentsStatus) : Prop :=
  (updateDeploymentComponents cfg now (Except.ok items) cs).2 = GoResult.ok ∧
  (∀ name : String,
    ¬ (trackedDeployment cfg name ∧ name ∈ items.map Deployment.Name) →
      (updateDeploymentComponents cfg now (Except.ok items) cs).1.lookup name =
        cs.lookup name) ∧
  (∀ (before after : List Deployment) (d : Deployment),
    items = before ++ d :: after → d.Name ∉ after.map Deployment.Name →
    trackedDeployment cfg d.Name →
    ∃ e, (updateDeploymentComponents cfg now (Except.ok items) cs).1.lookup d.Name = some e ∧
      ReplicaEntry cfg e d.AvailableReplicas d.Replicas)

/-- The behaviour of `updateStatefulsetComponents` on a list of statefulsets,
as `DeploymentComponentsProperty` with the postgres name as only tracked
name. -/
def StatefulsetComponentsProperty (cfg : Config) (now : Nat → Int)
    (items : List StatefulSet) (cs : ComponentsStatus) : Prop :=
  (updateStatefulsetComponents cfg now (Except.ok items) cs).2 = GoResult.ok ∧
  (∀ name : String,
    ¬ (name = cfg.COMPONENTS_POSTGRES_NAME ∧ name ∈ items.map StatefulSet.Name) →
      (updateStatefulsetComponents cfg now (Except.ok items) cs).1.lookup name =
        cs.lookup name) ∧
  (∀ (before after : List StatefulSet) (s : StatefulSet),
    items = before ++ s :: after → s.Name ∉ after.map StatefulSet.Name →
    s.Name = cfg.COMPONENTS_POSTGRES_NAME →
    ∃ e, (updateStatefulsetComponents cfg now (Except.ok items) cs).1.lookup s.Name = some e ∧
      ReplicaEntry cfg e s.AvailableReplicas s.Replicas)

/-- A sample of the constants of package `config`. -/
def sampleConfig : Config where
  COMPONENTS_MANAGER_NAME := "multicluster-global-hub-manager"
  COMPONENTS_GRAFANA_NAME := "multicluster-global-hub-grafana"
  COMPONENTS_INVENTORY_API_NAME := "inventory-api"
  COMPONENTS_POSTGRES_NAME := "multicluster-global-hub-postgres"
  COMPONENTS_AVAILABLE := "Available"
  CONDITION_STATUS_TRUE := "True"
  CONDITION_STATUS_FALSE := "False"
  MINIMUM_REPLICAS_AVAILABLE := "MinimumReplicasAvailable"
  MINIMUM_REPLICAS_UNAVAILABLE := "MinimumReplicasUnavailable"
  CONDITION_TYPE_DATABASE := "DatabaseConnection"
  CONDITION_REASON_RETENTION_PARSED := "RetentionParsed"
  CONDITION_REASON_RETENTION_PARSED_FAILED := "RetentionParsedFailed"

/-- A component status of the manager as the cluster reports it. -/
def sampleCurrentStatus : StatusCondition where
  Kind := "Deployment"
  Name := "multicluster-global-hub-manager"
  Type_ := "Available"
  Status := "True"
  Reason := "MinimumReplicasAvailable"
  Message := "Component multicluster-global-hub-manager have been deployed"
  LastTransitionTime := 100

/-- The status `sampleCurrentStatus` with another Kind, Name and
LastTransitionTime. -/
def sampleDesiredStatus : StatusCondition :=
  { sampleCurrentStatus with Kind := "StatefulSet", Name := "manager", LastTransitionTime := 200 }

/-! ## Kafka backup labels: data model -/

/-- The Go type `map[string]string` when it is not nil. -/
abbrev Labels := AList (fun _ : String => String)

/-- A member value of a JSON object as `encoding/json` sees it when it decodes
into a Go string: a JSON string, `null`, or a value of another kind. -/
inductive JSONMember where
  | str (s : String)
  | null
  | other
deriving DecidableEq, Repr

/-- The type `apiextensions.JSON`.  Its `Raw` bytes are represented by the
JSON document they spell: bytes that are no JSON document, `null`, an object
with its members in textual order (names may repeat), or a document of another
kind. -/
inductive JSON where
  | invalid
  | null
  | object (members : List (String × JSONMember))
  | other
deriving DecidableEq, Repr

/-- The metadata of a persistent-volume-claim template
(`KafkaSpecKafkaTemplatePersistentVolumeClaimMetadata` and its zookeeper twin). -/
structure PVCMetadata where
  Labels : Option JSON
  Annotations : Option JSON
deriving DecidableEq, Repr

/-- The persistent-volume-claim template. -/
structure PVCTemplate where
  Metadata : Option PVCMetadata
deriving DecidableEq, Repr

/-- The types `KafkaSpecKafkaTemplate` and `KafkaSpecZookeeperTemplate`, as far
as the backup controller reads them. -/
structure Template where
  PersistentVolumeClaim : Option PVCTemplate
deriving DecidableEq, Repr

/-- The type `KafkaSpecKafka`. -/
structure KafkaSpecKafka where
  Template : Option Template
deriving DecidableEq, Repr

/-- The type `KafkaSpecZookeeper`. -/
structure KafkaSpecZookeeper where
  Template : Option Template
deriving DecidableEq, Repr

/-- The type `KafkaSpec`. -/
structure KafkaSpec where
  Kafka : KafkaSpecKafka
  Zookeeper : KafkaSpecZookeeper
deriving DecidableEq, Repr

/-- The type `kafkav1beta2.Kafka` behind a non-nil pointer; `Spec` is a pointer
(`none` is nil). -/
structure Kafka where
  Name : String
  Spec : Option KafkaSpec
deriving DecidableEq, Repr

/-- The constants `BackupVolumnKey` and `BackupGlobalHubValue` of package
`constants` and the helper `HasLabel` of package `utils`.  They are declared
outside the verified files and are parameters of the embedding; the first
argument of `HasLabel` is a possibly nil map. -/
structure BackupEnv where
  BackupVolumnKey : String
  BackupGlobalHubValue : String
  HasLabel : Option Labels → String → String → Bool

/-! ## Kafka backup labels: `encoding/json` on `map[string]string` -/

/-- The string a member value decodes to; `null` leaves the zero value. -/
def JSONMember.value : JSONMember → String
  | JSONMember.str s => s
  | JSONMember.null => ""
  | JSONMember.other => ""

/-- The members of an object stored one after the other; a repeated name
overwrites. -/
def decodeMembers (members : List (String × JSONMember)) : Labels :=
  members.foldl (fun m kv => m.insert kv.1 kv.2.value) ∅

/-- The call `json.Unmarshal(raw, &m)` for a nil `m` of type
`map[string]string`: the error, or the map afterwards (`none` is nil). -/
def jsonUnmarshal : JSON → Except String (Option Labels)
  | JSON.invalid => Except.error "invalid character looking for beginning of value"
  | JSON.null => Except.ok none
  | JSON.other =>
    Except.error "json: cannot unmarshal value into Go value of type map[string]string"
  | JSON.object members =>
    if members.any (fun kv => decide (kv.2 = JSONMember.other)) then
      Except.error "json: cannot unmarshal value into Go value of type string"
    else Except.ok (some (decodeMembers members))

/-- The order in which `json.Marshal` writes the keys of a map: bytewise, which
for UTF-8 is the order of the code points. -/
def keyLE (a b : Sigma fun _ : String => String) : Prop := ¬ (b.1.data < a.1.data)

instance keyLE.decidable : DecidableRel keyLE :=
  fun a b => inferInstanceAs (Decidable (¬ (b.1.data < a.1.data)))

/-- The call `json.Marshal(m)` for a `map[string]string`: `null` for the nil
map, else the object of the entries sorted by key.  It never fails. -/
def jsonMarshal : Option Labels → Except String JSON
  | none => Except.ok JSON.null
  | some m =>
    Except.ok (JSON.object
      ((m.entries.insertionSort keyLE).map (fun e => (e.1, JSONMember.str e.2))))

/-- The constant `BackupVolumnLabelRaw`. -/
def BackupVolumnLabelRaw : JSON :=
  JSON.object [("cluster.open-cluster-management.io/volsync", JSONMember.str "globalhub")]

/-! ## Kafka backup labels: operations -/

/-- The metadata that both `desiredTemplate` values carry. -/
def desiredMetadata : PVCMetadata :=
  { Labels := some BackupVolumnLabelRaw, Annotations := none }

/-- The value `desiredTemplate` of the two `AddBackupLabel...` functions. -/
def desiredTemplate : Template :=
  { PersistentVolumeClaim := some { Metadata := some desiredMetadata } }

/-- The function `AddBackupLabelToKafkaTemplate` on a non-nil `existingKafka`.
The result is the returned pointer (`none` is nil), the flag and the error. -/
def AddBackupLabelToKafkaTemplate (env : BackupEnv) (existingKafka : Kafka) :
    Option Kafka × Bool × Option String :=
  let updatedKafka := existingKafka
  match existingKafka.Spec with
  | none =>
    (none, false, some ("kafka spec should not be nil, name: " ++ existingKafka.Name ++ "\x7d"))
  | some spec =>
    match spec.Kafka.Template with
    | none =>
      (some { updatedKafka with
          Spec := some { spec with Kafka := { Template := some desiredTemplate } } },
        true, none)
    | some template =>
      match template.PersistentVolumeClaim with
      | none =>
        (some { updatedKafka with
            Spec := some { spec with Kafka := { Template := some { template with
              PersistentVolumeClaim := desiredTemplate.PersistentVolumeClaim } } } },
          true, none)
      | some pvc =>
        match pvc.Metadata with
        | none =>
          (some { updatedKafka with
              Spec := some { spec with Kafka := { Template := some { template with
                PersistentVolumeClaim := some { pvc with
                  Metadata := some desiredMetadata } } } } },
            true, none)
        | some metadata =>
          match metadata.Labels with
          | none =>
            (some { updatedKafka with
                Spec := some { spec with Kafka := { Template := some { template with
                  PersistentVolumeClaim := some { pvc with
                    Metadata := some { metadata with
                      Labels := desiredMetadata.Labels } } } } } },
              true, none)
          | some kafkaPVCLabelsJson =>
            match jsonUnmarshal kafkaPVCLabelsJson with
            | Except.error err => (none, true, some err)
            | Except.ok kafkaPVCLabels =>
              if env.HasLabel kafkaPVCLabels env.BackupVolumnKey env.BackupGlobalHubValue then
                (some updatedKafka, false, none)
              else
                let kafkaPVCLabels : Labels := kafkaPVCLabels.getD ∅
                let kafkaPVCLabels :=
                  kafkaPVCLabels.insert env.BackupVolumnKey env.BackupGlobalHubValue
                match jsonMarshal (some kafkaPVCLabels) with
                | Except.error err => (none, true, some err)
                | Except.ok kafkaLabelJSON =>
                  (some { updatedKafka with
                      Spec := some { spec with Kafka := { Template := some { template with
                        PersistentVolumeClaim := some { pvc with
                          Metadata := some { metadata with
                            Labels := some kafkaLabelJSON } } } } } },
                    true, none)

/-- The function `AddBackupLabelToZookeeperTemplate` on a non-nil
`existingKafka`. -/
def AddBackupLabelToZookeeperTemplate (env : BackupEnv) (existingKafka : Kafka) :
    Option Kafka × Bool × Option String :=
  match existingKafka.Spec with
  | none => (none, false, some "kafka spec should not be nil")
  | some spec =>
    let updatedKafka := existingKafka
    match spec.Zookeeper.Template with
    | none =>
      (some { updatedKafka with
          Spec := some { spec with Zookeeper := { Template := some desiredTemplate } } },
        true, none)
    | some template =>
      match template.PersistentVolumeClaim with
      | none =>
        (some { updatedKafka with
            Spec := some { spec with Zookeeper := { Template := some { template with
              PersistentVolumeClaim := desiredTemplate.PersistentVolumeClaim } } } },
          true, none)
      | some pvc =>
        match pvc.Metadata with
        | none =>
          (some { updatedKafka with
              Spec := some { spec with Zookeeper := { Template := some { template with
                PersistentVolumeClaim := some { pvc with
                  Metadata := some desiredMetadata } } } } },
            true, none)
        | some metadata =>
          match metadata.Labels with
          | none =>
            (some { updatedKafka with
                Spec := some { spec with Zookeeper := { Template := some { template with
                  PersistentVolumeClaim := some { pvc with
                    Metadata := some { metadata with
                      Labels := desiredMetadata.Labels } } } } } },
              true, none)
          | some zookeeperPVCLabelsJson =>
            match jsonUnmarshal zookeeperPVCLabelsJson with
            | Except.error err => (none, true, some err)
            | Except.ok zookeeperPVCLabels =>
              if env.HasLabel zookeeperPVCLabels env.BackupVolumnKey
                  env.BackupGlobalHubValue then
                (some updatedKafka, false, none)
              else
                let zookeeperPVCLabels : Labels := zookeeperPVCLabels.getD ∅
                let zookeeperPVCLabels :=
                  zookeeperPVCLabels.insert env.BackupVolumnKey env.BackupGlobalHubValue
                match jsonMarshal (some zookeeperPVCLabels) with
                | Except.error err => (none, true, some err)
                | Except.ok zookeeperLabelJSON =>
                  (some { updatedKafka with
                      Spec := some { spec with Zookeeper := { Template := some { template with
                        PersistentVolumeClaim := some { pvc with
                          Metadata := some { metadata with
                            Labels := some zookeeperLabelJSON } } } } } },
                    true, none)

/-- The labels that the delete functions look at: present only when template,
persistent volume claim, metadata and labels are all non-nil. -/
def templateLabels (template : Option Template) : Option JSON :=
  match template with
  | none => none
  | some t =>
    match t.PersistentVolumeClaim with
    | none => none
    | some pvc =>
      match pvc.Metadata with
      | none => none
      | some metadata => metadata.Labels

/-- The assignment `x.Template.PersistentVolumeClaim.Metadata.Labels = &raw`
on a template whose path down to the metadata is non-nil (as it is where the
code performs it); other templates are left as they are. -/
def setTemplateLabels (template : Option Template) (raw : JSON) : Option Template :=
  match template with
  | none => none
  | some t =>
    match t.PersistentVolumeClaim with
    | none => some t
    | some pvc =>
      match pvc.Metadata with
      | none => some t
      | some metadata =>
        some { t with PersistentVolumeClaim := some { pvc with
          Metadata := some { metadata with Labels := some raw } } }

/-- The function `DeleteBackupLabelToKafkaTemplate` on a non-nil
`existingKafka`. -/
def DeleteBackupLabelToKafkaTemplate (env : BackupEnv) (existingKafka : Kafka) :
    Option Kafka × Bool × Option String :=
  let updatedKafka := existingKafka
  match existingKafka.Spec with
  | none => (some updatedKafka, false, none)
  | some spec =>
    match templateLabels spec.Kafka.Template with
    | none => (some updatedKafka, false, none)
    | some kafkaPVCLabelsJson =>
      match jsonUnmarshal kafkaPVCLabelsJson with
      | Except.error err => (some updatedKafka, false, some err)
      | Except.ok kafkaPVCLabels =>
        if ¬ env.HasLabel kafkaPVCLabels env.BackupVolumnKey env.BackupGlobalHubValue then
          (some updatedKafka, false, none)
        else
          let kafkaPVCLabels := kafkaPVCLabels.map (fun m => m.erase env.BackupVolumnKey)
          match jsonMarshal kafkaPVCLabels with
          | Except.error err => (some updatedKafka, false, some err)
          | Except.ok kafkaLabelJSON =>
            (some { updatedKafka with
                Spec := some { spec with Kafka :=
                  { Template := setTemplateLabels spec.Kafka.Template kafkaLabelJSON } } },
              true, none)

/-- The function `DeleteBackupLabelToZookeeperTemplate` on a non-nil
`existingKafka`. -/
def DeleteBackupLabelToZookeeperTemplate (env : BackupEnv) (existingKafka : Kafka) :
    Option Kafka × Bool × Option String :=
  let updatedKafka := existingKafka
  match existingKafka.Spec with
  | none => (some updatedKafka, false, none)
  | some spec =>
    match templateLabels spec.Zookeeper.Template with
    | none => (some updatedKafka, false, none)
    | some zookeeperPVCLabelsJson =>
      match jsonUnmarshal zookeeperPVCLabelsJson with
      | Except.error err => (some updatedKafka, false, some err)
      | Except.ok zookeeperPVCLabels =>
        if ¬ env.HasLabel zookeeperPVCLabels env.BackupVolumnKey
            env.BackupGlobalHubValue then
          (some updatedKafka, false, none)
        else
          let zookeeperPVCLabels :=
            zookeeperPVCLabels.map (fun m => m.erase env.BackupVolumnKey)
          match jsonMarshal zookeeperPVCLabels with
          | Except.error err => (some updatedKafka, false, some err)
          | Except.ok zookeeperLabelJSON =>
            (some { updatedKafka with
                Spec := some { spec with Zookeeper :=
                  { Template := setTemplateLabels spec.Zookeeper.Template
                      zookeeperLabelJSON } } },
              true, none)

/-! ## Kafka backup labels: the properties under verification -/

/-- The kafka PVC-template labels of an object, `none` when the spec, the
template, the persistent volume claim, the metadata or the labels are nil. -/
def kafkaLabels (k : Kafka) : Option JSON :=
  match k.Spec with
  | none => none
  | some spec => templateLabels spec.Kafka.Template

/-- The zookeeper PVC-template labels of an object. -/
def zookeeperLabels (k : Kafka) : Option JSON :=
  match k.Spec with
  | none => none
  | some spec => templateLabels spec.Zookeeper.Template

/-- A valid JSON object of strings: an object all of whose member values are
JSON strings. -/
def isObjectOfStrings : JSON → Bool
  | JSON.object members =>
    members.all (fun kv => match kv.2 with
      | JSONMember.str _ => true
      | _ => false)
  | _ => false

/-- The label map that labels decode to; empty when the labels are absent (or
do not decode to a map). -/
def decodedLabels (labels : Option JSON) : Labels :=
  match labels with
  | none => ∅
  | some raw =>
    match jsonUnmarshal raw with
    | Except.ok (some m) => m
    | _ => ∅

/-- What `HasLabel` is expected to compute for the backup volume key and
value: the map holds the key with the value. -/
def HasLabelHolds (env : BackupEnv) : Prop :=
  ∀ m : Option Labels,
    env.HasLabel m env.BackupVolumnKey env.BackupGlobalHubValue = true ↔
      ∃ l, m = some l ∧ l.lookup env.BackupVolumnKey = some env.BackupGlobalHubValue

/-- The outcome of adding the backup label, for the labels read by `labelsOf`
and the original label map `orig`: no error, a flag that is true exactly when
`orig` did not hold the label, and an object whose labels are a JSON object of
strings that decodes to `orig` with the label set. -/
def AddLabelOutcome (out : Option Kafka × Bool × Option String)
    (labelsOf : Kafka → Option JSON) (orig : Labels) : Prop :=
  ∃ k' flag, out = (some k', flag, none) ∧
    (flag = true ↔
      orig.lookup "cluster.open-cluster-management.io/volsync" ≠ some "globalhub") ∧
    ∃ raw', labelsOf k' = some raw' ∧ isObjectOfStrings raw' = true ∧
      ∀ key : String, (decodedLabels (some raw')).lookup key =
        if key = "cluster.open-cluster-management.io/volsync" then some "globalhub"
        else orig.lookup key

/-- The outcome of deleting the backup label when `orig` holds it: flag true,
no error, and an object whose labels are a JSON object of strings that decodes
to `orig` without the key. -/
def DeleteLabelOutcome (out : Option Kafka × Bool × Option String)
    (labelsOf : Kafka → Option JSON) (orig : Labels) : Prop :=
  ∃ k', out = (some k', true, none) ∧
    ∃ raw', labelsOf k' = some raw' ∧ isObjectOfStrings raw' = true ∧
      ∀ key : String, (decodedLabels (some raw')).lookup key =
        if key = "cluster.open-cluster-management.io/volsync" then none
        else orig.lookup key

/-- The labels hold the backup volume label: they decode to a map that has
the key with the value. -/
def holdsBackupLabel (labels : Option JSON) : Prop :=
  ∃ raw m, labels = some raw ∧ jsonUnmarshal raw = Except.ok (some m) ∧
    m.lookup "cluster.open-cluster-management.io/volsync" = some "globalhub"

/-- A JSON object that `json.Unmarshal` decodes into a `map[string]string`:
an object all of whose member values are JSON strings or `null`. -/
def isObjectOfStringsOrNull : JSON → Bool
  | JSON.object members =>
    members.all (fun kv => match kv.2 with
      | JSONMember.other => false
      | _ => true)
  | _ => false

/-- The behaviour of a delete function with outcome `out` on the object `k`
whose labels in question are `labelsOf k`: when the labels are a JSON object
with strings or `null` as member values that holds the backup volume label,
the label is removed (`DeleteLabelOutcome`); when they are absent, or decode
without holding it, the outcome is the unchanged copy, flag false and no
error; and whenever they do not decode to a map holding the label (a decoding
error included) the object is returned unchanged with flag false. -/
def DeleteLabelBehaviour (out : Option Kafka × Bool × Option String)
    (labelsOf : Kafka → Option JSON) (k : Kafka) : Prop :=
  (∀ raw, labelsOf k = some raw → isObjectOfStringsOrNull raw = true →
    (decodedLabels (some raw)).lookup "cluster.open-cluster-management.io/volsync" =
        some "globalhub" →
      DeleteLabelOutcome out labelsOf (decodedLabels (some raw))) ∧
  ((labelsOf k = none ∨
      ∃ raw m, labelsOf k = some raw ∧ jsonUnmarshal raw = Except.ok m ∧
        ¬ ∃ l, m = some l ∧
          l.lookup "cluster.open-cluster-management.io/volsync" = some "globalhub") →
    out = (some k, false, none)) ∧
  (¬ holdsBackupLabel (labelsOf k) → out.1 = some k ∧ out.2.1 = false)

/-- An implementation of `HasLabel`: the map holds the key with the value. -/
def sampleHasLabel (m : Option Labels) (key value : String) : Bool :=
  match m with
  | none => false
  | some l => decide (l.lookup key = some value)

/-- A sample of the constants and the helper of `BackupEnv`. -/
def sampleBackupEnv : BackupEnv where
  BackupVolumnKey := "cluster.open-cluster-management.io/volsync"
  BackupGlobalHubValue := "globalhub"
  HasLabel := sampleHasLabel

/-- A template whose PVC-template labels are `raw`. -/
def templateWithLabels (raw : JSON) : Template :=
  { PersistentVolumeClaim :=
      some { Metadata := some { Labels := some raw, Annotations := none } } }

/-- A Kafka object whose kafka template is nil and whose zookeeper labels are
the object with the one member `"app": "zk"`. -/
def sampleKafka : Kafka where
  Name := "kafka"
  Spec := some
    { Kafka := { Template := none }
      Zookeeper :=
        { Template := some (templateWithLabels (JSON.object [("app", JSONMember.str "zk")])) } }

/-- The labels `"app": "k"`, `"note": null` and the backup volume label. -/
def sampleLabels : JSON :=
  JSON.object [("app", JSONMember.str "k"), ("note", JSONMember.null),
    ("cluster.open-cluster-management.io/volsync", JSONMember.str "globalhub")]

/-- A Kafka object whose kafka labels are the JSON object with the backup
volume label and a member `"replicas"` whose value is a number. -/
def sampleMixedKafka : Kafka where
  Name := "kafka"
  Spec := some
    { Kafka :=
        { Template := some (templateWithLabels (JSON.object
            [("cluster.open-cluster-management.io/volsync", JSONMember.str "globalhub"),
             ("replicas", JSONMember.other)])) }
      Zookeeper := { Template := none } }

/-- A Kafka object whose kafka and zookeeper labels both are `sampleLabels`. -/
def sampleLabelledKafka : Kafka where
  Name := "kafka"
  Spec := some
    { Kafka := { Template := some (templateWithLabels sampleLabels) }
      Zookeeper := { Template := some (templateWithLabels sampleLabels) } }

/-! ## Bundle pipeline: data model

The sources of the compressor, the producer, the consumer and the syncer are
not among the verified files; the definitions of this part follow sections 3,
4 and 7 of the specification. -/

/-- Modelled from the spec: the `bytes` of the codec and producer contracts. -/
abbrev Bytes := List (Fin 256)

/-- Modelled from the spec: the error taxonomy of section 7 (the sources of the
pipeline's error values are missing). -/
inductive PipelineError where
  | SerializationError
  | DecodeError
  | MessageTooLargeError
  | TransportError
  | DuplicateKeyError
  | NotFoundError
  | StoreQueryError
deriving DecidableEq, Repr

/-- Modelled from the spec: the Bundle of section 3 (the source of the bundle
types is missing), with the payload type as parameter. -/
structure Bundle (P : Type) where
  kind : String
  generation : Nat
  payload : P
  originID : String
deriving DecidableEq, Repr

/-- Modelled from the spec: the Transport Message of section 3 (the source of
the transport types is missing). -/
structure TransportMessage where
  topic : String
  key : String
  headers : List (String × String)
  body : Bytes
deriving DecidableEq, Repr

/-- Modelled from the spec: the Compressor of section 4.1 (package
`compressor` is missing): a codec identifier for the encoding header, `Compress`
and a `Decompress` that fails with `DecodeError` on malformed input. -/
structure Compressor where
  id : String
  Compress : Bytes → Bytes
  Decompress : Bytes → Except PipelineError Bytes

/-- Modelled from the spec: the name of the header that carries the codec
identifier (section 3, Transport Message); the header name itself is not given
by the spec. -/
def contentEncoding : String := "content-encoding"

/-- Modelled from the spec: a codec as the consumer selects it by the encoding
header (package `compressor` is missing), a Compressor that meets the contract
of section 4.1, "inverse of each other for all valid inputs": decompressing
what `Compress` returned gives the input back. -/
structure Codec extends Compressor where
  inverse : ∀ bytes : Bytes, Decompress (Compress bytes) = Except.ok bytes

/-! ## Bundle pipeline: producer -/

/-- Modelled from the spec: the configuration of the Transport Producer of
section 4.3 (package `producer` is missing): its compressor, the
serialization of payloads to a canonical byte form, and the message-size limit
in bytes. -/
structure Producer (P : Type) where
  compressor : Compressor
  serialize : P → Except PipelineError Bytes
  MsgSizeLimit : Nat

/-- Modelled from the spec: the message bus as the producer sees it (the bus
client is missing): whether the broker is reachable and the messages enqueued
so far, oldest first. -/
structure Bus where
  reachable : Bool
  published : List TransportMessage
deriving DecidableEq, Repr

/-- Modelled from the spec: the operation `Publish(topic, key, bundle)` of
section 4.3 (package `producer` is missing).  Step 1 serializes the payload,
step 2 compresses, step 3 fails with `MessageTooLargeError` above the limit,
step 4 enqueues; failures are reported and leave the bus as it was. -/
def Producer.Publish {P : Type} (p : Producer P) (bus : Bus) (topic key : String)
    (bundle : Bundle P) : Except PipelineError Unit × Bus :=
  match p.serialize bundle.payload with
  | Except.error e => (Except.error e, bus)
  | Except.ok serialized =>
    let body := p.compressor.Compress serialized
    if p.MsgSizeLimit < body.length then (Except.error PipelineError.MessageTooLargeError, bus)
    else if bus.reachable then
      (Except.ok (),
        { bus with published := bus.published ++
            [{ topic := topic, key := key,
               headers := [(contentEncoding, p.compressor.id)], body := body }] })
    else (Except.error PipelineError.TransportError, bus)

/-! ## Bundle pipeline: registry and consumer -/

/-- Modelled from the spec: the Registry Entry of section 3 (package
`registration` is missing): message key, factory of an empty payload container,
and the delivery channel, named by a number. -/
structure RegistryEntry (P : Type) where
  messageKey : String
  factory : Unit → P
  deliveryChannel : Nat

/-- Modelled from the spec: the Transport Consumer of section 4.4 (package
`consumer` is missing): the codecs it can select by the encoding header, the
deserialization that populates a freshly constructed container, and its
registry. -/
structure Consumer (P : Type) where
  codecs : String → Option Codec
  deserialize : P → Bytes → Except PipelineError P
  registry : List (RegistryEntry P)

/-- Modelled from the spec: `Lookup(messageKey)` of section 4.2. -/
def Consumer.Lookup {P : Type} (c : Consumer P) (messageKey : String) :
    Except PipelineError (RegistryEntry P) :=
  match c.registry.find? (fun e => decide (e.messageKey = messageKey)) with
  | some e => Except.ok e
  | none => Except.error PipelineError.NotFoundError

/-- Modelled from the spec: `CustomBundleRegister(messageKey, registration)` of
section 4.4, which stores the entry as `Register` of section 4.2 does and fails
with `DuplicateKeyError` for a key already registered. -/
def Consumer.CustomBundleRegister {P : Type} (c : Consumer P) (messageKey : String)
    (factory : Unit → P) (deliveryChannel : Nat) : Except PipelineError (Consumer P) :=
  match c.Lookup messageKey with
  | Except.ok _ => Except.error PipelineError.DuplicateKeyError
  | Except.error _ =>
    Except.ok { c with registry := c.registry ++
      [{ messageKey := messageKey, factory := factory, deliveryChannel := deliveryChannel }] }

/-- Modelled from the spec: a run of `CustomBundleRegister` calls, one per
entry and in the order of the list; it fails with the first failing call. -/
def Consumer.registerAll {P : Type} :
    Consumer P → List (RegistryEntry P) → Except PipelineError (Consumer P)
  | c, [] => Except.ok c
  | c, e :: rest =>
    match c.CustomBundleRegister e.messageKey e.factory e.deliveryChannel with
    | Except.error err => Except.error err
    | Except.ok c' => Consumer.registerAll c' rest

/-- Modelled from the spec: the delivery channels of section 3; for each
channel number the bundles sent on it so far, oldest first. -/
abbrev Channels (P : Type) := Nat → List P

/-- Modelled from the spec: one pass of the receive loop of section 4.4 for an
incoming message.  Step 1 decompresses with the codec named by the headers,
step 2 resolves the registry entry by the message key, step 3 instantiates via
the factory and deserializes, step 4 sends on the delivery channel; a failing
step skips the message. -/
def Consumer.receive {P : Type} (c : Consumer P) (chans : Channels P)
    (msg : TransportMessage) : Channels P :=
  match (msg.headers.lookup contentEncoding).bind c.codecs with
  | none => chans
  | some codec =>
    match codec.Decompress msg.body with
    | Except.error _ => chans
    | Except.ok serialized =>
      match c.Lookup msg.key with
      | Except.error _ => chans
      | Except.ok entry =>
        match c.deserialize (entry.factory ()) serialized with
        | Except.error _ => chans
        | Except.ok bundle =>
          Function.update chans entry.deliveryChannel (chans entry.deliveryChannel ++ [bundle])

/-! ## Bundle pipeline: syncer -/

/-- Modelled from the spec: a row of the relational store (section 6) with its
resource kind and origin. -/
structure Row (P : Type) where
  identity : String
  kind : String
  originID : String
  generation : Nat
  payload : P
deriving DecidableEq, Repr

/-- Modelled from the spec: the Sync Registration of section 3 (package
`syncer` is missing); the poll interval is left out. -/
structure SyncRegistration (P : Type) where
  kind : String
  topic : String
  bundleBuilder : List (Row P) → List (Bundle P)

/-- Modelled from the spec: the watermark store of section 3, the last synced
generation per kind. -/
abbrev Watermarks := String → Nat

/-- Modelled from the spec: step 1 of a tick (section 4.5), the rows of the
kind whose generation exceeds the watermark. -/
def changedRows {P : Type} (rows : List (Row P)) (kind : String) (watermark : Nat) :
    List (Row P) :=
  rows.filter (fun r => decide (r.kind = kind) && decide (watermark < r.generation))

/-- Modelled from the spec: the maximum generation of the rows sent in a tick
(step 4 of section 4.5); 0 for no rows. -/
def maxGeneration {P : Type} (rows : List (Row P)) : Nat :=
  rows.foldl (fun g r => max g r.generation) 0

/-- Modelled from the spec: step 3 of a tick (section 4.5), `Publish` for each
bundle in turn, keyed by its origin; the first failure ends the publishing. -/
def publishAll {P : Type} (p : Producer P) (topic : String) :
    Bus → List (Bundle P) → Except PipelineError Unit × Bus
  | bus, [] => (Except.ok (), bus)
  | bus, b :: rest =>
    match p.Publish bus topic b.originID b with
    | (Except.ok _, bus') => publishAll p topic bus' rest
    | (Except.error e, bus') => (Except.error e, bus')

/-- Modelled from the spec: one tick of the DB-to-Transport Syncer for a
registration, section 4.5 (package `syncer` is missing).  `queried` is the
outcome of reading the store.  Without changed rows, or when the query or a
publish fails, the watermarks stay; after a successful publish the watermark of
the kind is the maximum generation just sent. -/
def syncerTick {P : Type} (reg : SyncRegistration P) (p : Producer P)
    (queried : Except PipelineError (List (Row P))) (watermarks : Watermarks) (bus : Bus) :
    Watermarks × Bus :=
  match queried with
  | Except.error _ => (watermarks, bus)
  | Except.ok rows =>
    let changed := changedRows rows reg.kind (watermarks reg.kind)
    if changed.isEmpty then (watermarks, bus)
    else
      match publishAll p reg.topic bus (reg.bundleBuilder changed) with
      | (Except.ok _, bus') =>
        (Function.update watermarks reg.kind (maxGeneration changed), bus')
      | (Except.error _, bus') => (watermarks, bus')

/-- A codec that stores the input behind a two-byte magic number. -/
def storedCodec : Compressor where
  id := "stored"
  Compress := fun bytes => 31 :: 139 :: bytes
  Decompress := fun bytes =>
    match bytes with
    | 31 :: 139 :: rest => Except.ok rest
    | _ => Except.error PipelineError.DecodeError

/-- A producer of byte payloads with `storedCodec` and a limit of 1024 bytes. -/
def sampleProducer : Producer Bytes where
  compressor := storedCodec
  serialize := fun payload => Except.ok payload
  MsgSizeLimit := 1024

/-- A second codec, which writes the input back to front. -/
def reversedCodec : Compressor where
  id := "reversed"
  Compress := fun bytes => bytes.reverse
  Decompress := fun bytes => Except.ok bytes.reverse

/-- The codec `storedCodec` with its contract: stripping the magic number
undoes prepending it. -/
def storedLawfulCodec : Codec where
  toCompressor := storedCodec
  inverse := fun _ => rfl

/-- A consumer of byte payloads that knows `storedCodec` and has nothing
registered. -/
def sampleConsumer : Consumer Bytes where
  codecs := fun id => if id = "stored" then some storedLawfulCodec else none
  deserialize := fun _ bytes => Except.ok bytes
  registry := []

/-- Payloads of two kinds: label sets and configuration. -/
inductive SamplePayload where
  | labels (content : Bytes)
  | config (content : Bytes)
deriving DecidableEq, Repr

/-- A serialization of `SamplePayload`: a tag byte for the kind, then the
content. -/
def sampleSerialize : SamplePayload → Bytes
  | SamplePayload.labels content => 0 :: content
  | SamplePayload.config content => 1 :: content

/-- The deserialization into a container of `SamplePayload`: it fills the
container when the tag byte is that of the container's kind and fails with
`SerializationError` otherwise. -/
def sampleDeserialize : SamplePayload → Bytes → Except PipelineError SamplePayload
  | SamplePayload.labels _, 0 :: content => Except.ok (SamplePayload.labels content)
  | SamplePayload.config _, 1 :: content => Except.ok (SamplePayload.config content)
  | _, _ => Except.error PipelineError.SerializationError

/-- A consumer of `SamplePayload` that knows `storedCodec` and has nothing
registered. -/
def sampleTypedConsumer : Consumer SamplePayload where
  codecs := fun id => if id = "stored" then some storedLawfulCodec else none
  deserialize := sampleDeserialize
  registry := []

/-- The registration of the managed-cluster-labels kind with one bundle per
changed row. -/
def sampleRegistration : SyncRegistration Bytes where
  kind := "managed-cluster-labels"
  topic := "spec"
  bundleBuilder := fun rows =>
    rows.map (fun r =>
      { kind := r.kind, generation := r.generation, payload := r.payload,
        originID := r.originID })

end GlobalHub

/-! # Theorems -/

namespace GlobalHub

/-! ## Status reconciler: `needUpdateComponentsStatus` -/

theorem sameReported_eq_false_iff (dcs cur : StatusCondition) :
    sameReported dcs cur = false ↔
      (dcs.Type_ ≠ cur.Type_ ∨ dcs.Reason ≠ cur.Reason ∨
        dcs.Status ≠ cur.Status ∨ dcs.Message ≠ cur.Message) := by
  unfold sameReported
  simp only [Bool.and_eq_false_iff, decide_eq_false_iff_not]
  tauto

theorem needUpdateStep_fst (current : ComponentsStatus) (acc : Bool × ComponentsStatus)
    (name : String) (dcs : StatusCondition) :
    (needUpdateStep current acc name dcs).1 = true ↔
      acc.1 = true ∨ needsChange current name dcs := by
  unfold needUpdateStep needsChange
  cases hl : current.lookup name with
  | none => simp
  | some cur =>
    by_cases hs : sameReported dcs cur = true
    · have hn : ¬ (dcs.Type_ ≠ cur.Type_ ∨ dcs.Reason ≠ cur.Reason ∨
          dcs.Status ≠ cur.Status ∨ dcs.Message ≠ cur.Message) := by
        rw [← sameReported_eq_false_iff]; simp [hs]
      simp [hs, hn]
    · have hs' : sameReported dcs cur = false := by simpa using hs
      have hn := (sameReported_eq_false_iff dcs cur).1 hs'
      simp [hs', hn]

theorem needUpdate_foldl_fst (current : ComponentsStatus)
    (l : List (Sigma fun _ : String => StatusCondition)) (acc : Bool × ComponentsStatus) :
    (l.foldl (fun r a => needUpdateStep current r a.1 a.2) acc).1 = true ↔
      acc.1 = true ∨ ∃ e ∈ l, needsChange current e.1 e.2 := by
  induction l generalizing acc with
  | nil => simp
  | cons e rest ih =>
    rw [List.foldl_cons, ih, needUpdateStep_fst]
    simp only [List.mem_cons, exists_eq_or_imp]
    tauto

/-- C5: `needUpdateComponentsStatus` reports an update exactly when some name
of `desired` is missing from `current` or is present there with a different
Type, Reason, Status or Message; when every desired entry has a current entry
that agrees on these four fields (whatever Kind, Name and LastTransitionTime
are), no update is reported. -/
theorem needUpdateComponentsStatus_updated_iff (current desired : ComponentsStatus) :
    ((needUpdateComponentsStatus current desired).1 = true ↔
      ∃ name dcs, desired.lookup name = some dcs ∧
        (current.lookup name = none ∨
          ∃ cur, current.lookup name = some cur ∧
            (dcs.Type_ ≠ cur.Type_ ∨ dcs.Reason ≠ cur.Reason ∨
              dcs.Status ≠ cur.Status ∨ dcs.Message ≠ cur.Message))) ∧
    ((∀ name dcs, desired.lookup name = some dcs →
        ∃ cur, current.lookup name = some cur ∧
          dcs.Type_ = cur.Type_ ∧ dcs.Reason = cur.Reason ∧
            dcs.Status = cur.Status ∧ dcs.Message = cur.Message) →
      (needUpdateComponentsStatus current desired).1 = false) := by
  have key : (needUpdateComponentsStatus current desired).1 = true ↔
      ∃ name dcs, desired.lookup name = some dcs ∧ needsChange current name dcs := by
    unfold needUpdateComponentsStatus
    simp only [AList.foldl]
    rw [needUpdate_foldl_fst]
    constructor
    · rintro (h | ⟨e, he, hc⟩)
      · simp at h
      · exact ⟨e.1, e.2, AList.mem_lookup_iff.2 he, hc⟩
    · rintro ⟨name, dcs, hl, hc⟩
      exact Or.inr ⟨⟨name, dcs⟩, AList.mem_lookup_iff.1 hl, hc⟩
  refine ⟨key, ?_⟩
  intro hall
  cases hb : (needUpdateComponentsStatus current desired).1 with
  | false => rfl
  | true =>
    exfalso
    obtain ⟨name, dcs, hl, hc⟩ := key.1 hb
    obtain ⟨cur, hcur, h1, h2, h3, h4⟩ := hall name dcs hl
    rcases hc with hnone | ⟨cur', hcur', hd⟩
    · rw [hnone] at hcur; cases hcur
    · rw [hcur] at hcur'; cases hcur'
      rcases hd with h | h | h | h
      · exact h h1
      · exact h h2
      · exact h h3
      · exact h h4

end GlobalHub

namespace GlobalHub

/-! ## Status reconciler: `updateRetentionConditions` -/

/-- C6: when the retention setting parses to `m` months,
`updateRetentionConditions` asks `NeedUpdateConditions` for a database
condition with status true, the parsed reason and the message
"The data will be kept in the database for N months." with `N = max m 1`, which
is at least 1; when parsing fails it asks for a database condition with status
false and the parse-failed reason. -/
theorem updateRetentionConditions_requests (cfg : Config)
    (ParseRetentionMonth : String → Except String Int)
    (NeedUpdateConditions : List Condition → Condition → Bool × List Condition)
    (mgh : MulticlusterGlobalHub) :
    (∀ m, ParseRetentionMonth mgh.Retention = Except.ok m →
      updateRetentionConditions cfg ParseRetentionMonth NeedUpdateConditions mgh =
        NeedUpdateConditions mgh.Conditions
          { Type_ := cfg.CONDITION_TYPE_DATABASE
            Status := cfg.CONDITION_STATUS_TRUE
            Reason := cfg.CONDITION_REASON_RETENTION_PARSED
            Message := "The data will be kept in the database for " ++
              fmtInt (max m 1) ++ " months." } ∧
      1 ≤ max m 1 ∧ fmtInt (max m 1) = toString (max m 1).toNat) ∧
    (∀ e, ParseRetentionMonth mgh.Retention = Except.error e →
      ∃ msg, updateRetentionConditions cfg ParseRetentionMonth NeedUpdateConditions mgh =
        NeedUpdateConditions mgh.Conditions
          { Type_ := cfg.CONDITION_TYPE_DATABASE
            Status := cfg.CONDITION_STATUS_FALSE
            Reason := cfg.CONDITION_REASON_RETENTION_PARSED_FAILED
            Message := msg }) := by
  constructor
  · intro m hm
    refine ⟨?_, le_max_right m 1, ?_⟩
    · unfold updateRetentionConditions
      rw [hm]
      by_cases h : m < 1
      · have : max m 1 = 1 := max_eq_right (le_of_lt h)
        simp [h, this]
      · have : max m 1 = m := max_eq_left (not_lt.1 h)
        simp [h, this]
    · have h1 : (1 : Int) ≤ max m 1 := le_max_right m 1
      obtain ⟨k, hk⟩ := Int.eq_ofNat_of_zero_le (le_trans (by decide) h1)
      rw [hk]
      rfl
  · intro e he
    refine ⟨"failed to parse the retention month, err:" ++ e, ?_⟩
    unfold updateRetentionConditions
    rw [he]

end GlobalHub

namespace GlobalHub

/-! ## Status reconciler: replica counts of deployments and statefulsets -/

theorem lookup_setComponentsAvailable_ne (cfg : Config) (t : Int) (n kind : String)
    (a r : Int) (cs : ComponentsStatus) (name : String) (h : name ≠ n) :
    (setComponentsAvailable cfg t n kind a r cs).lookup name = cs.lookup name := by
  unfold setComponentsAvailable
  split <;> exact AList.lookup_insert_ne h

theorem lookup_setComponentsAvailable_self (cfg : Config)
    (hconst : cfg.CONDITION_STATUS_TRUE ≠ cfg.CONDITION_STATUS_FALSE ∨
      cfg.MINIMUM_REPLICAS_AVAILABLE ≠ cfg.MINIMUM_REPLICAS_UNAVAILABLE)
    (t : Int) (n kind : String) (a r : Int) (cs : ComponentsStatus) :
    ∃ e, (setComponentsAvailable cfg t n kind a r cs).lookup n = some e ∧
      ReplicaEntry cfg e a (some r) := by
  unfold setComponentsAvailable
  by_cases h : a = r
  · rw [if_pos h]
    refine ⟨_, AList.lookup_insert cs, ⟨fun _ => congrArg some h, fun _ => ⟨rfl, rfl⟩⟩, ?_⟩
    intro hne; exact absurd (congrArg some h) hne
  · rw [if_neg h]
    refine ⟨_, AList.lookup_insert cs, ⟨?_, ?_⟩, fun _ => ⟨rfl, rfl⟩⟩
    · rintro ⟨hstatus, hreason⟩
      rcases hconst with hc | hc
      · exact absurd hstatus.symm hc
      · exact absurd hreason.symm hc
    · intro he; exact absurd (Option.some.inj he) h

theorem deploymentLoop_frame (cfg : Config) (now : Nat → Int) (items : List Deployment) :
    ∀ (i : Nat) (cs : ComponentsStatus) (name : String),
      ¬ (trackedDeployment cfg name ∧ name ∈ items.map Deployment.Name) →
        (deploymentLoop cfg now i items cs).1.lookup name = cs.lookup name := by
  induction items with
  | nil => intro i cs name _; rfl
  | cons d rest ih =>
    intro i cs name hname
    have hrest : ¬ (trackedDeployment cfg name ∧ name ∈ rest.map Deployment.Name) := by
      rintro ⟨ht, hm⟩
      exact hname ⟨ht, by simp only [List.map_cons, List.mem_cons]; exact Or.inr hm⟩
    unfold deploymentLoop
    split
    · exact ih (i + 1) cs name hrest
    · rename_i htracked
      cases hr : d.Replicas with
      | none => rfl
      | some r =>
        simp only
        rw [ih (i + 1) _ name hrest]
        apply lookup_setComponentsAvailable_ne
        intro heq
        apply hname
        refine ⟨?_, by simp [heq]⟩
        unfold trackedDeployment
        rw [heq]
        by_contra hcon
        apply htracked
        simp only [not_or] at hcon
        exact hcon

theorem deploymentLoop_ok (cfg : Config) (now : Nat → Int) (items : List Deployment) :
    ∀ (i : Nat) (cs : ComponentsStatus),
      (∀ d ∈ items, trackedDeployment cfg d.Name → d.Replicas ≠ none) →
        (deploymentLoop cfg now i items cs).2 = GoResult.ok := by
  induction items with
  | nil => intro i cs _; rfl
  | cons d rest ih =>
    intro i cs hrep
    have hrest : ∀ d' ∈ rest, trackedDeployment cfg d'.Name → d'.Replicas ≠ none :=
      fun d' hd' => hrep d' (List.mem_cons_of_mem _ hd')
    unfold deploymentLoop
    split
    · exact ih (i + 1) cs hrest
    · rename_i htracked
      have ht : trackedDeployment cfg d.Name := by
        unfold trackedDeployment
        by_contra hcon
        apply htracked
        simp only [not_or] at hcon
        exact hcon
      cases hr : d.Replicas with
      | none => exact absurd hr (hrep d (List.mem_cons_self _ _) ht)
      | some r => exact ih (i + 1) _ hrest

theorem deploymentLoop_entry (cfg : Config)
    (hconst : cfg.CONDITION_STATUS_TRUE ≠ cfg.CONDITION_STATUS_FALSE ∨
      cfg.MINIMUM_REPLICAS_AVAILABLE ≠ cfg.MINIMUM_REPLICAS_UNAVAILABLE)
    (now : Nat → Int) (after : List Deployment) (d : Deployment)
    (hlast : d.Name ∉ after.map Deployment.Name) (ht : trackedDeployment cfg d.Name)
    (before : List Deployment) :
    ∀ (i : Nat) (cs : ComponentsStatus),
      (∀ d' ∈ before ++ d :: after, trackedDeployment cfg d'.Name → d'.Replicas ≠ none) →
        ∃ e, (deploymentLoop cfg now i (before ++ d :: after) cs).1.lookup d.Name = some e ∧
          ReplicaEntry cfg e d.AvailableReplicas d.Replicas := by
  induction before with
  | nil =>
    intro i cs hrep
    have hskip : ¬ (d.Name ≠ cfg.COMPONENTS_MANAGER_NAME ∧
        d.Name ≠ cfg.COMPONENTS_GRAFANA_NAME ∧
        d.Name ≠ cfg.COMPONENTS_INVENTORY_API_NAME) := by
      rintro ⟨h1, h2, h3⟩
      rcases ht with h | h | h
      · exact h1 h
      · exact h2 h
      · exact h3 h
    rw [List.nil_append]
    unfold deploymentLoop
    rw [if_neg hskip]
    cases hr : d.Replicas with
    | none => exact absurd hr (hrep d (by simp) ht)
    | some r =>
      simp only
      rw [deploymentLoop_frame cfg now after (i + 1) _ d.Name (fun h => hlast h.2)]
      exact lookup_setComponentsAvailable_self cfg hconst (now i) d.Name "Deployment"
        d.AvailableReplicas r cs
  | cons d0 rest ih =>
    intro i cs hrep
    have hrest : ∀ d' ∈ rest ++ d :: after,
        trackedDeployment cfg d'.Name → d'.Replicas ≠ none :=
      fun d' hd' => hrep d' (by rw [List.cons_append]; exact List.mem_cons_of_mem _ hd')
    rw [List.cons_append]
    unfold deploymentLoop
    split
    · exact ih (i + 1) cs hrest
    · rename_i htracked
      have ht0 : trackedDeployment cfg d0.Name := by
        unfold trackedDeployment
        by_contra hcon
        apply htracked
        simp only [not_or] at hcon
        exact hcon
      cases hr : d0.Replicas with
      | none =>
        exact absurd hr (hrep d0 (by rw [List.cons_append]; exact List.mem_cons_self _ _) ht0)
      | some r => exact ih (i + 1) _ hrest

end GlobalHub

namespace GlobalHub

theorem statefulsetLoop_frame (cfg : Config) (now : Nat → Int) (items : List StatefulSet) :
    ∀ (i : Nat) (cs : ComponentsStatus) (name : String),
      ¬ (name = cfg.COMPONENTS_POSTGRES_NAME ∧ name ∈ items.map StatefulSet.Name) →
        (statefulsetLoop cfg now i items cs).1.lookup name = cs.lookup name := by
  induction items with
  | nil => intro i cs name _; rfl
  | cons s rest ih =>
    intro i cs name hname
    have hrest : ¬ (name = cfg.COMPONENTS_POSTGRES_NAME ∧
        name ∈ rest.map StatefulSet.Name) := by
      rintro ⟨ht, hm⟩
      exact hname ⟨ht, by simp only [List.map_cons, List.mem_cons]; exact Or.inr hm⟩
    unfold statefulsetLoop
    split
    · exact ih (i + 1) cs name hrest
    · rename_i htracked
      cases hr : s.Replicas with
      | none => rfl
      | some r =>
        simp only
        rw [ih (i + 1) _ name hrest]
        apply lookup_setComponentsAvailable_ne
        intro heq
        apply hname
        refine ⟨?_, by simp [heq]⟩
        rw [heq]
        exact not_not.1 htracked

theorem statefulsetLoop_ok (cfg : Config) (now : Nat → Int) (items : List StatefulSet) :
    ∀ (i : Nat) (cs : ComponentsStatus),
      (∀ s ∈ items, s.Name = cfg.COMPONENTS_POSTGRES_NAME → s.Replicas ≠ none) →
        (statefulsetLoop cfg now i items cs).2 = GoResult.ok := by
  induction items with
  | nil => intro i cs _; rfl
  | cons s rest ih =>
    intro i cs hrep
    have hrest : ∀ s' ∈ rest, s'.Name = cfg.COMPONENTS_POSTGRES_NAME → s'.Replicas ≠ none :=
      fun s' hs' => hrep s' (List.mem_cons_of_mem _ hs')
    unfold statefulsetLoop
    split
    · exact ih (i + 1) cs hrest
    · rename_i htracked
      cases hr : s.Replicas with
      | none => exact absurd hr (hrep s (List.mem_cons_self _ _) (not_not.1 htracked))
      | some r => exact ih (i + 1) _ hrest

theorem statefulsetLoop_entry (cfg : Config)
    (hconst : cfg.CONDITION_STATUS_TRUE ≠ cfg.CONDITION_STATUS_FALSE ∨
      cfg.MINIMUM_REPLICAS_AVAILABLE ≠ cfg.MINIMUM_REPLICAS_UNAVAILABLE)
    (now : Nat → Int) (after : List StatefulSet) (s : StatefulSet)
    (hlast : s.Name ∉ after.map StatefulSet.Name)
    (ht : s.Name = cfg.COMPONENTS_POSTGRES_NAME) (before : List StatefulSet) :
    ∀ (i : Nat) (cs : ComponentsStatus),
      (∀ s' ∈ before ++ s :: after,
        s'.Name = cfg.COMPONENTS_POSTGRES_NAME → s'.Replicas ≠ none) →
        ∃ e, (statefulsetLoop cfg now i (before ++ s :: after) cs).1.lookup s.Name = some e ∧
          ReplicaEntry cfg e s.AvailableReplicas s.Replicas := by
  induction before with
  | nil =>
    intro i cs hrep
    rw [List.nil_append]
    unfold statefulsetLoop
    rw [if_neg (not_not.2 ht)]
    cases hr : s.Replicas with
    | none => exact absurd hr (hrep s (by simp) ht)
    | some r =>
      simp only
      rw [statefulsetLoop_frame cfg now after (i + 1) _ s.Name (fun h => hlast h.2)]
      exact lookup_setComponentsAvailable_self cfg hconst (now i) s.Name "StatefulSet"
        s.AvailableReplicas r cs
  | cons s0 rest ih =>
    intro i cs hrep
    have hrest : ∀ s' ∈ rest ++ s :: after,
        s'.Name = cfg.COMPONENTS_POSTGRES_NAME → s'.Replicas ≠ none :=
      fun s' hs' => hrep s' (by rw [List.cons_append]; exact List.mem_cons_of_mem _ hs')
    rw [List.cons_append]
    unfold statefulsetLoop
    split
    · exact ih (i + 1) cs hrest
    · rename_i htracked
      cases hr : s0.Replicas with
      | none =>
        exact absurd hr (hrep s0 (by rw [List.cons_append]; exact List.mem_cons_self _ _)
          (not_not.1 htracked))
      | some r => exact ih (i + 1) _ hrest

/-- C9 (amended): the constants for status true and false, or those for the
two reasons, being distinct, for lists in which every tracked item has its
replica count (`Spec.Replicas`) set,
`updateDeploymentComponents` (tracked: manager, grafana, inventory-api) and
`updateStatefulsetComponents` (tracked: postgres) return normally, change the
component-status map only at the names of tracked items of the list, and give
each tracked item an entry that has status true with reason
minimum-replicas-available if and only if its available count equals its
desired count, and status false with reason minimum-replicas-unavailable
otherwise. -/
theorem updateComponents_replicas_set (cfg : Config) (now : Nat → Int)
    (deployments : List Deployment) (statefulsets : List StatefulSet)
    (cs : ComponentsStatus)
    (hconst : cfg.CONDITION_STATUS_TRUE ≠ cfg.CONDITION_STATUS_FALSE ∨
      cfg.MINIMUM_REPLICAS_AVAILABLE ≠ cfg.MINIMUM_REPLICAS_UNAVAILABLE)
    (hdReplicas : ∀ d ∈ deployments, trackedDeployment cfg d.Name → d.Replicas ≠ none)
    (hsReplicas : ∀ s ∈ statefulsets,
      s.Name = cfg.COMPONENTS_POSTGRES_NAME → s.Replicas ≠ none) :
    DeploymentComponentsProperty cfg now deployments cs ∧
      StatefulsetComponentsProperty cfg now statefulsets cs := by
  refine ⟨⟨?_, ?_, ?_⟩, ⟨?_, ?_, ?_⟩⟩
  · exact deploymentLoop_ok cfg now deployments 0 cs hdReplicas
  · intro name hname
    exact deploymentLoop_frame cfg now deployments 0 cs name hname
  · intro before after d hitems hlast ht
    subst hitems
    exact deploymentLoop_entry cfg hconst now after d hlast ht before 0 cs hdReplicas
  · exact statefulsetLoop_ok cfg now statefulsets 0 cs hsReplicas
  · intro name hname
    exact statefulsetLoop_frame cfg now statefulsets 0 cs name hname
  · intro before after s hitems hlast ht
    subst hitems
    exact statefulsetLoop_entry cfg hconst now after s hlast ht before 0 cs hsReplicas

/-- Witness for C9 (amended): a manager deployment with 1 of 1 replicas
available, an untracked deployment without replica count, and the postgres
statefulset with 0 of 1 replicas available. -/
theorem updateComponents_replicas_set_witness :
    DeploymentComponentsProperty sampleConfig (fun i => (i : Int))
        [{ Name := "multicluster-global-hub-manager", Replicas := some 1,
           AvailableReplicas := 1 },
         { Name := "other", Replicas := none, AvailableReplicas := 0 }] ∅ ∧
      StatefulsetComponentsProperty sampleConfig (fun i => (i : Int))
        [{ Name := "multicluster-global-hub-postgres", Replicas := some 1,
           AvailableReplicas := 0 }] ∅ :=
  updateComponents_replicas_set sampleConfig (fun i => (i : Int)) _ _ ∅
    (Or.inl (by decide))
    (by
      intro d hd ht
      simp only [List.mem_cons, List.mem_singleton, List.not_mem_nil, or_false] at hd
      rcases hd with rfl | rfl
      · simp
      · exfalso
        revert ht
        unfold trackedDeployment sampleConfig
        decide)
    (by
      intro s hs _
      simp only [List.mem_singleton] at hs
      subst hs
      simp)

/-- C9 fails as stated: for the list of one manager deployment whose
`Spec.Replicas` is nil, `updateDeploymentComponents` panics on the dereference
and the map has no entry for the manager afterwards. -/
theorem updateDeploymentComponents_nil_replicas :
    (updateDeploymentComponents sampleConfig (fun _ => 0)
        (Except.ok [{ Name := "multicluster-global-hub-manager", Replicas := none,
                      AvailableReplicas := 0 }]) ∅).2 =
      GoResult.panic "invalid memory address or nil pointer dereference" ∧
    (updateDeploymentComponents sampleConfig (fun _ => 0)
        (Except.ok [{ Name := "multicluster-global-hub-manager", Replicas := none,
                      AvailableReplicas := 0 }]) ∅).1.lookup
        "multicluster-global-hub-manager" = none ∧
    ¬ DeploymentComponentsProperty sampleConfig (fun _ => 0)
        [{ Name := "multicluster-global-hub-manager", Replicas := none,
           AvailableReplicas := 0 }] ∅ := by
  have hnone : (updateDeploymentComponents sampleConfig (fun _ => 0)
      (Except.ok [Deployment.mk "multicluster-global-hub-manager" none 0])
      ∅).1.lookup "multicluster-global-hub-manager" = none := by
    decide
  refine ⟨by decide, hnone, ?_⟩
  rintro ⟨-, -, hentry⟩
  obtain ⟨e, he, -⟩ := hentry [] []
    (Deployment.mk "multicluster-global-hub-manager" none 0) rfl
    (by simp) (Or.inl rfl)
  rw [hnone] at he
  cases he

end GlobalHub

namespace GlobalHub

/-! ## Kafka backup labels: decoding what was encoded -/

theorem lookup_foldl_insert_str (key : String) (l : List (Sigma fun _ : String => String)) :
    l.NodupKeys → ∀ acc : Labels,
      (List.foldl (fun (m : Labels) (kv : String × JSONMember) => m.insert kv.1 kv.2.value) acc
        (l.map (fun e => (e.1, JSONMember.str e.2)))).lookup key =
      (List.dlookup key l).orElse (fun _ => acc.lookup key) := by
  induction l with
  | nil => intro _ acc; rfl
  | cons e rest ih =>
    intro hnd acc
    obtain ⟨hnotin, hrest⟩ := List.nodupKeys_cons.1 hnd
    rw [List.map_cons, List.foldl_cons, ih hrest]
    obtain ⟨a, b⟩ := e
    by_cases hk : key = a
    · subst hk
      have hnone : List.dlookup key rest = none := List.dlookup_eq_none.2 hnotin
      rw [hnone, List.dlookup_cons_eq]
      simp [JSONMember.value]
    · rw [List.dlookup_cons_ne rest ⟨a, b⟩ hk]
      cases hd : List.dlookup key rest with
      | some v => rfl
      | none =>
        simp only [Option.orElse]
        exact AList.lookup_insert_ne hk

theorem any_other_map_str (l : List (Sigma fun _ : String => String)) :
    (l.map (fun e => ((e.1, JSONMember.str e.2) : String × JSONMember))).any
      (fun kv => decide (kv.2 = JSONMember.other)) = false := by
  induction l with
  | nil => rfl
  | cons e rest ih => simp [List.any_cons, ih]

theorem all_str_map_str (l : List (Sigma fun _ : String => String)) :
    (l.map (fun e => ((e.1, JSONMember.str e.2) : String × JSONMember))).all
      (fun kv => match kv.2 with
        | JSONMember.str _ => true
        | _ => false) = true := by
  induction l with
  | nil => rfl
  | cons e rest ih => simp [List.all_cons, ih]

/-- Marshalling a map never fails and yields a JSON object of strings that
decodes to the same map. -/
theorem jsonMarshal_some (m : Labels) :
    ∃ raw, jsonMarshal (some m) = Except.ok raw ∧ isObjectOfStrings raw = true ∧
      ∀ key : String, (decodedLabels (some raw)).lookup key = m.lookup key := by
  refine ⟨_, rfl, ?_, ?_⟩
  · exact all_str_map_str _
  · intro key
    have hperm := List.perm_insertionSort keyLE m.entries
    have hnd : (m.entries.insertionSort keyLE).NodupKeys :=
      (List.perm_nodupKeys hperm).2 m.nodupKeys
    unfold decodedLabels jsonUnmarshal
    simp only [any_other_map_str, Bool.false_eq_true, if_false]
    unfold decodeMembers
    rw [lookup_foldl_insert_str key _ hnd ∅]
    rw [List.perm_dlookup key hnd m.nodupKeys hperm]
    show (List.dlookup key m.entries).orElse _ = List.dlookup key m.entries
    cases List.dlookup key m.entries <;> rfl

/-- A JSON object of strings decodes without error into a non-nil map. -/
theorem jsonUnmarshal_of_isObjectOfStrings (raw : JSON) (h : isObjectOfStrings raw = true) :
    jsonUnmarshal raw = Except.ok (some (decodedLabels (some raw))) := by
  cases raw with
  | invalid => simp [isObjectOfStrings] at h
  | null => simp [isObjectOfStrings] at h
  | other => simp [isObjectOfStrings] at h
  | object members =>
    have hany : members.any (fun kv => decide (kv.2 = JSONMember.other)) = false := by
      rw [List.any_eq_false]
      intro kv hkv
      have := (List.all_eq_true.1 h) kv hkv
      cases hv : kv.2 with
      | str s => simp
      | null => simp
      | other => rw [hv] at this; simp at this
    simp [decodedLabels, jsonUnmarshal, hany]

/-- A JSON object with strings or `null` as member values decodes without
error into a non-nil map. -/
theorem jsonUnmarshal_of_isObjectOfStringsOrNull (raw : JSON)
    (h : isObjectOfStringsOrNull raw = true) :
    jsonUnmarshal raw = Except.ok (some (decodedLabels (some raw))) := by
  cases raw with
  | invalid => simp [isObjectOfStringsOrNull] at h
  | null => simp [isObjectOfStringsOrNull] at h
  | other => simp [isObjectOfStringsOrNull] at h
  | object members =>
    have hany : members.any (fun kv => decide (kv.2 = JSONMember.other)) = false := by
      rw [List.any_eq_false]
      intro kv hkv
      have := (List.all_eq_true.1 h) kv hkv
      cases hv : kv.2 with
      | str s => simp
      | null => simp
      | other => rw [hv] at this; simp at this
    simp [decodedLabels, jsonUnmarshal, hany]

theorem decodedLabels_BackupVolumnLabelRaw (key : String) :
    (decodedLabels (some BackupVolumnLabelRaw)).lookup key =
      if key = "cluster.open-cluster-management.io/volsync" then some "globalhub"
      else none := by
  have h : decodedLabels (some BackupVolumnLabelRaw) =
      (∅ : Labels).insert "cluster.open-cluster-management.io/volsync" "globalhub" := by
    rfl
  rw [h]
  by_cases hk : key = "cluster.open-cluster-management.io/volsync"
  · rw [if_pos hk, hk]; exact AList.lookup_insert _
  · rw [if_neg hk, AList.lookup_insert_ne hk]; rfl

end GlobalHub

namespace GlobalHub

/-! ## Kafka backup labels: adding the label -/

theorem addLabelOutcome_absent (out : Option Kafka × Bool × Option String)
    (labelsOf : Kafka → Option JSON) (k' : Kafka)
    (hout : out = (some k', true, none))
    (hlabels : labelsOf k' = some BackupVolumnLabelRaw) :
    AddLabelOutcome out labelsOf ∅ := by
  refine ⟨k', true, hout, ?_, BackupVolumnLabelRaw, hlabels, rfl, ?_⟩
  · simp
  · intro key
    rw [decodedLabels_BackupVolumnLabelRaw]
    rfl

theorem addLabelOutcome_present (env : BackupEnv)
    (hkey : env.BackupVolumnKey = "cluster.open-cluster-management.io/volsync")
    (hval : env.BackupGlobalHubValue = "globalhub")
    (hHas : HasLabelHolds env)
    (raw : JSON) (hraw : isObjectOfStrings raw = true)
    (labelsOf : Kafka → Option JSON) (k : Kafka) (hk : labelsOf k = some raw)
    (rebuild : JSON → Kafka) (hrebuild : ∀ r, labelsOf (rebuild r) = some r)
    (out : Option Kafka × Bool × Option String)
    (hout : out =
      if env.HasLabel (some (decodedLabels (some raw))) env.BackupVolumnKey
          env.BackupGlobalHubValue then (some k, false, none)
      else
        match jsonMarshal (some ((decodedLabels (some raw)).insert env.BackupVolumnKey
            env.BackupGlobalHubValue)) with
        | Except.error err => (none, true, some err)
        | Except.ok r => (some (rebuild r), true, none)) :
    AddLabelOutcome out labelsOf (decodedLabels (some raw)) := by
  have hspec := hHas (some (decodedLabels (some raw)))
  rw [hkey, hval] at hspec
  rw [hkey, hval] at hout
  by_cases hhas : env.HasLabel (some (decodedLabels (some raw)))
      "cluster.open-cluster-management.io/volsync" "globalhub" = true
  · rw [if_pos hhas] at hout
    obtain ⟨l, hl, hlook⟩ := hspec.1 hhas
    cases hl
    refine ⟨k, false, hout, ?_, raw, hk, hraw, ?_⟩
    · simp [hlook]
    · intro key
      by_cases hkk : key = "cluster.open-cluster-management.io/volsync"
      · rw [if_pos hkk, hkk]; exact hlook
      · rw [if_neg hkk]
  · rw [if_neg hhas] at hout
    obtain ⟨r, hr, hobj, hdec⟩ := jsonMarshal_some
      ((decodedLabels (some raw)).insert "cluster.open-cluster-management.io/volsync"
        "globalhub")
    rw [hr] at hout
    refine ⟨rebuild r, true, hout, ?_, r, hrebuild r, hobj, ?_⟩
    · simp only [true_iff]
      intro hlook
      exact hhas (hspec.2 ⟨_, rfl, hlook⟩)
    · intro key
      rw [hdec key]
      by_cases hkk : key = "cluster.open-cluster-management.io/volsync"
      · rw [if_pos hkk, hkk]; exact AList.lookup_insert _
      · rw [if_neg hkk]; exact AList.lookup_insert_ne hkk

theorem AddBackupLabelToKafkaTemplate_outcome (env : BackupEnv) (k : Kafka)
    (hkey : env.BackupVolumnKey = "cluster.open-cluster-management.io/volsync")
    (hval : env.BackupGlobalHubValue = "globalhub")
    (hHas : HasLabelHolds env) (hspec : k.Spec ≠ none)
    (hvalid : kafkaLabels k = none ∨
      ∃ raw, kafkaLabels k = some raw ∧ isObjectOfStrings raw = true) :
    AddLabelOutcome (AddBackupLabelToKafkaTemplate env k) kafkaLabels
      (decodedLabels (kafkaLabels k)) := by
  obtain ⟨name, spec⟩ := k
  cases spec with
  | none => exact absurd rfl hspec
  | some spec =>
    obtain ⟨⟨template⟩, zk⟩ := spec
    cases template with
    | none => exact addLabelOutcome_absent _ _ _ rfl rfl
    | some template =>
      obtain ⟨pvc⟩ := template
      cases pvc with
      | none => exact addLabelOutcome_absent _ _ _ rfl rfl
      | some pvc =>
        obtain ⟨metadata⟩ := pvc
        cases metadata with
        | none => exact addLabelOutcome_absent _ _ _ rfl rfl
        | some metadata =>
          obtain ⟨labels, annotations⟩ := metadata
          cases labels with
          | none => exact addLabelOutcome_absent _ _ _ rfl rfl
          | some raw =>
            rcases hvalid with habs | ⟨raw', hraw', hobj⟩
            · cases habs
            · cases hraw'
              refine addLabelOutcome_present env hkey hval hHas raw hobj kafkaLabels
                ⟨name, some ⟨⟨some ⟨some ⟨some ⟨some raw, annotations⟩⟩⟩⟩, zk⟩⟩ rfl
                (fun r => ⟨name, some ⟨⟨some ⟨some ⟨some ⟨some r, annotations⟩⟩⟩⟩, zk⟩⟩)
                (fun r => rfl) _ ?_
              simp only [AddBackupLabelToKafkaTemplate,
                jsonUnmarshal_of_isObjectOfStrings raw hobj, Option.getD_some]

theorem AddBackupLabelToZookeeperTemplate_outcome (env : BackupEnv) (k : Kafka)
    (hkey : env.BackupVolumnKey = "cluster.open-cluster-management.io/volsync")
    (hval : env.BackupGlobalHubValue = "globalhub")
    (hHas : HasLabelHolds env) (hspec : k.Spec ≠ none)
    (hvalid : zookeeperLabels k = none ∨
      ∃ raw, zookeeperLabels k = some raw ∧ isObjectOfStrings raw = true) :
    AddLabelOutcome (AddBackupLabelToZookeeperTemplate env k) zookeeperLabels
      (decodedLabels (zookeeperLabels k)) := by
  obtain ⟨name, spec⟩ := k
  cases spec with
  | none => exact absurd rfl hspec
  | some spec =>
    obtain ⟨kafka, ⟨template⟩⟩ := spec
    cases template with
    | none => exact addLabelOutcome_absent _ _ _ rfl rfl
    | some template =>
      obtain ⟨pvc⟩ := template
      cases pvc with
      | none => exact addLabelOutcome_absent _ _ _ rfl rfl
      | some pvc =>
        obtain ⟨metadata⟩ := pvc
        cases metadata with
        | none => exact addLabelOutcome_absent _ _ _ rfl rfl
        | some metadata =>
          obtain ⟨labels, annotations⟩ := metadata
          cases labels with
          | none => exact addLabelOutcome_absent _ _ _ rfl rfl
          | some raw =>
            rcases hvalid with habs | ⟨raw', hraw', hobj⟩
            · cases habs
            · cases hraw'
              refine addLabelOutcome_present env hkey hval hHas raw hobj zookeeperLabels
                ⟨name, some ⟨kafka, ⟨some ⟨some ⟨some ⟨some raw, annotations⟩⟩⟩⟩⟩⟩ rfl
                (fun r => ⟨name, some ⟨kafka, ⟨some ⟨some ⟨some ⟨some r, annotations⟩⟩⟩⟩⟩⟩)
                (fun r => rfl) _ ?_
              simp only [AddBackupLabelToZookeeperTemplate,
                jsonUnmarshal_of_isObjectOfStrings raw hobj, Option.getD_some]

end GlobalHub

namespace GlobalHub

/-- C7: with the backup volume key and value being those of
`BackupVolumnLabelRaw` and `HasLabel` telling whether a map holds them, for a
Kafka object with a non-nil Spec whose PVC-template labels are absent or a JSON
object of strings, `AddBackupLabelToKafkaTemplate` (for the kafka template) and
`AddBackupLabelToZookeeperTemplate` (for the zookeeper template) return no
error and an object whose labels decode to the original label map (empty when
absent) with "cluster.open-cluster-management.io/volsync" set to "globalhub"
and every other label unchanged; the flag is true exactly when the original
labels did not hold that key with that value. -/
theorem AddBackupLabel_sets_label (env : BackupEnv) (k : Kafka)
    (hkey : env.BackupVolumnKey = "cluster.open-cluster-management.io/volsync")
    (hval : env.BackupGlobalHubValue = "globalhub")
    (hHas : HasLabelHolds env) (hspec : k.Spec ≠ none) :
    ((kafkaLabels k = none ∨
        ∃ raw, kafkaLabels k = some raw ∧ isObjectOfStrings raw = true) →
      AddLabelOutcome (AddBackupLabelToKafkaTemplate env k) kafkaLabels
        (decodedLabels (kafkaLabels k))) ∧
    ((zookeeperLabels k = none ∨
        ∃ raw, zookeeperLabels k = some raw ∧ isObjectOfStrings raw = true) →
      AddLabelOutcome (AddBackupLabelToZookeeperTemplate env k) zookeeperLabels
        (decodedLabels (zookeeperLabels k))) :=
  ⟨AddBackupLabelToKafkaTemplate_outcome env k hkey hval hHas hspec,
    AddBackupLabelToZookeeperTemplate_outcome env k hkey hval hHas hspec⟩

theorem sampleHasLabel_holds : HasLabelHolds sampleBackupEnv := by
  intro m
  cases m with
  | none => simp [sampleBackupEnv, sampleHasLabel]
  | some l => simp [sampleBackupEnv, sampleHasLabel]

/-- Witness for C7: an object with a nil kafka template and zookeeper labels
without the backup volume label. -/
theorem AddBackupLabel_sets_label_witness :
    AddLabelOutcome (AddBackupLabelToKafkaTemplate sampleBackupEnv sampleKafka) kafkaLabels
        (decodedLabels (kafkaLabels sampleKafka)) ∧
      AddLabelOutcome (AddBackupLabelToZookeeperTemplate sampleBackupEnv sampleKafka)
        zookeeperLabels (decodedLabels (zookeeperLabels sampleKafka)) :=
  ⟨(AddBackupLabel_sets_label sampleBackupEnv sampleKafka rfl rfl sampleHasLabel_holds
      (by decide)).1 (Or.inl rfl),
    (AddBackupLabel_sets_label sampleBackupEnv sampleKafka rfl rfl sampleHasLabel_holds
      (by decide)).2 (Or.inr ⟨_, rfl, rfl⟩)⟩

/-! ## Kafka backup labels: deleting the label -/

theorem templateLabels_setTemplateLabels (t : Option Template) (raw r : JSON)
    (h : templateLabels t = some raw) :
    templateLabels (setTemplateLabels t r) = some r := by
  cases t with
  | none => cases h
  | some t =>
    obtain ⟨pvc⟩ := t
    cases pvc with
    | none => cases h
    | some pvc =>
      obtain ⟨metadata⟩ := pvc
      cases metadata with
      | none => cases h
      | some metadata => rfl

theorem deleteLabelBehaviour_of_eq (env : BackupEnv)
    (hkey : env.BackupVolumnKey = "cluster.open-cluster-management.io/volsync")
    (hval : env.BackupGlobalHubValue = "globalhub")
    (hHas : HasLabelHolds env)
    (labelsOf : Kafka → Option JSON) (k : Kafka) (rebuild : JSON → Kafka)
    (hrebuild : ∀ raw r, labelsOf k = some raw → labelsOf (rebuild r) = some r)
    (out : Option Kafka × Bool × Option String)
    (hout : out =
      match labelsOf k with
      | none => (some k, false, none)
      | some labelsJson =>
        match jsonUnmarshal labelsJson with
        | Except.error err => (some k, false, some err)
        | Except.ok labels =>
          if ¬ env.HasLabel labels env.BackupVolumnKey env.BackupGlobalHubValue then
            (some k, false, none)
          else
            match jsonMarshal (labels.map (fun m => m.erase env.BackupVolumnKey)) with
            | Except.error err => (some k, false, some err)
            | Except.ok r => (some (rebuild r), true, none)) :
    DeleteLabelBehaviour out labelsOf k := by
  have hspec := hHas
  unfold HasLabelHolds at hspec
  rw [hkey, hval] at hspec hout
  refine ⟨?_, ?_, ?_⟩
  · intro raw hraw hobj hlook
    have hhas : env.HasLabel (some (decodedLabels (some raw)))
        "cluster.open-cluster-management.io/volsync" "globalhub" = true :=
      (hspec _).2 ⟨_, rfl, hlook⟩
    obtain ⟨r, hr, hrobj, hdec⟩ := jsonMarshal_some
      ((decodedLabels (some raw)).erase "cluster.open-cluster-management.io/volsync")
    simp only [hraw, jsonUnmarshal_of_isObjectOfStringsOrNull raw hobj, hhas,
      not_true_eq_false, if_false, Option.map_some', hr] at hout
    refine ⟨rebuild r, hout, r, hrebuild raw r hraw, hrobj, ?_⟩
    intro key
    rw [hdec key]
    by_cases hkk : key = "cluster.open-cluster-management.io/volsync"
    · rw [if_pos hkk, hkk]; exact AList.lookup_erase _ _
    · rw [if_neg hkk]; exact AList.lookup_erase_ne hkk
  · rintro (habs | ⟨raw, m, hraw, hdec, hlook⟩)
    · rw [habs] at hout; exact hout
    · have hhas : ¬ env.HasLabel m
          "cluster.open-cluster-management.io/volsync" "globalhub" = true :=
        fun h => hlook ((hspec m).1 h)
      simp only [hraw, hdec, hhas, not_false_eq_true, if_true] at hout
      exact hout
  · intro hnot
    cases hl : labelsOf k with
    | none => rw [hl] at hout; rw [hout]; exact ⟨rfl, rfl⟩
    | some raw =>
      rw [hl] at hout
      simp only at hout
      cases hu : jsonUnmarshal raw with
      | error e => rw [hu] at hout; rw [hout]; exact ⟨rfl, rfl⟩
      | ok labels =>
        rw [hu] at hout
        have hhas : ¬ env.HasLabel labels
            "cluster.open-cluster-management.io/volsync" "globalhub" = true := by
          intro h
          obtain ⟨l, hl', hlook⟩ := (hspec _).1 h
          subst hl'
          exact hnot ⟨raw, l, hl, hu, hlook⟩
        simp only [hhas, not_false_eq_true, if_true] at hout
        rw [hout]
        exact ⟨rfl, rfl⟩

/-- C8 (amended): with the backup volume key and value being
"cluster.open-cluster-management.io/volsync" and "globalhub" and `HasLabel`
telling whether a map holds them, for a Kafka object with a non-nil Spec:
when the PVC-template labels are a JSON object whose member values are all
strings or `null` and that holds the key with the value,
`DeleteBackupLabelToKafkaTemplate` (kafka template) and
`DeleteBackupLabelToZookeeperTemplate` (zookeeper template) return flag true,
no error and an object whose labels decode to the original map without that
key, all other labels unchanged; when the labels are absent or do not decode
to a map holding the key with the value, they return the unchanged copy with
flag false, and without error unless the decoding failed. -/
theorem DeleteBackupLabel_removes_label (env : BackupEnv) (k : Kafka)
    (hkey : env.BackupVolumnKey = "cluster.open-cluster-management.io/volsync")
    (hval : env.BackupGlobalHubValue = "globalhub")
    (hHas : HasLabelHolds env) (hspec : k.Spec ≠ none) :
    DeleteLabelBehaviour (DeleteBackupLabelToKafkaTemplate env k) kafkaLabels k ∧
      DeleteLabelBehaviour (DeleteBackupLabelToZookeeperTemplate env k) zookeeperLabels k := by
  obtain ⟨name, spec⟩ := k
  cases spec with
  | none => exact absurd rfl hspec
  | some spec =>
    constructor
    · refine deleteLabelBehaviour_of_eq env hkey hval hHas kafkaLabels ⟨name, some spec⟩
        (fun r => ⟨name, some { spec with
          Kafka := { Template := setTemplateLabels spec.Kafka.Template r } }⟩)
        (fun raw r h => templateLabels_setTemplateLabels spec.Kafka.Template raw r h) _ ?_
      simp only [DeleteBackupLabelToKafkaTemplate, kafkaLabels]
    · refine deleteLabelBehaviour_of_eq env hkey hval hHas zookeeperLabels ⟨name, some spec⟩
        (fun r => ⟨name, some { spec with
          Zookeeper := { Template := setTemplateLabels spec.Zookeeper.Template r } }⟩)
        (fun raw r h => templateLabels_setTemplateLabels spec.Zookeeper.Template raw r h) _ ?_
      simp only [DeleteBackupLabelToZookeeperTemplate, zookeeperLabels]

end GlobalHub

namespace GlobalHub

/-- Witness for C8 (amended): an object whose kafka and zookeeper labels hold
the backup volume label next to a string member and a `null` member. -/
theorem DeleteBackupLabel_removes_label_witness :
    DeleteLabelOutcome (DeleteBackupLabelToKafkaTemplate sampleBackupEnv sampleLabelledKafka)
        kafkaLabels (decodedLabels (some sampleLabels)) ∧
      DeleteLabelOutcome
        (DeleteBackupLabelToZookeeperTemplate sampleBackupEnv sampleLabelledKafka)
        zookeeperLabels (decodedLabels (some sampleLabels)) :=
  ⟨(DeleteBackupLabel_removes_label sampleBackupEnv sampleLabelledKafka rfl rfl
      sampleHasLabel_holds (by decide)).1.1 sampleLabels rfl rfl (by decide),
    (DeleteBackupLabel_removes_label sampleBackupEnv sampleLabelledKafka rfl rfl
      sampleHasLabel_holds (by decide)).2.1 sampleLabels rfl rfl (by decide)⟩

/-- C8 fails as stated: the kafka labels of `sampleMixedKafka` are a valid JSON
object holding the backup volume key with value "globalhub", next to a member
whose value is a number; decoding into `map[string]string` fails, and
`DeleteBackupLabelToKafkaTemplate` returns the unchanged copy with flag false
and the decoding error, not flag true without error. -/
theorem DeleteBackupLabelToKafkaTemplate_mixed_object :
    kafkaLabels sampleMixedKafka = some (JSON.object
        [("cluster.open-cluster-management.io/volsync", JSONMember.str "globalhub"),
         ("replicas", JSONMember.other)]) ∧
    DeleteBackupLabelToKafkaTemplate sampleBackupEnv sampleMixedKafka =
      (some sampleMixedKafka, false,
        some "json: cannot unmarshal value into Go value of type string") ∧
    ¬ ∃ orig, DeleteLabelOutcome
        (DeleteBackupLabelToKafkaTemplate sampleBackupEnv sampleMixedKafka) kafkaLabels orig := by
  have hout : DeleteBackupLabelToKafkaTemplate sampleBackupEnv sampleMixedKafka =
      (some sampleMixedKafka, false,
        some "json: cannot unmarshal value into Go value of type string") := by
    decide
  refine ⟨rfl, hout, ?_⟩
  rintro ⟨orig, k', hk', -⟩
  rw [hout] at hk'
  cases hk'

end GlobalHub

namespace GlobalHub

/-! ## Bundle pipeline: producer -/

/-- C2: when the serialized and compressed payload of a bundle is longer than
the producer's message-size limit, `Publish` returns `MessageTooLargeError` and
the bus is as before, so no message is published; and whatever the bundle, a
message that `Publish` enqueues carries the whole compressed payload, within
the limit, never a shortened one. -/
theorem Publish_rejects_oversized {P : Type} (p : Producer P) (bus : Bus)
    (topic key : String) (bundle : Bundle P) (serialized : Bytes)
    (hser : p.serialize bundle.payload = Except.ok serialized)
    (hsize : p.MsgSizeLimit < (p.compressor.Compress serialized).length) :
    p.Publish bus topic key bundle = (Except.error PipelineError.MessageTooLargeError, bus) ∧
    ∀ b : Bundle P,
      (p.Publish bus topic key b).2 = bus ∨
        ∃ s, p.serialize b.payload = Except.ok s ∧
          (p.compressor.Compress s).length ≤ p.MsgSizeLimit ∧
          (p.Publish bus topic key b).2.published = bus.published ++
            [{ topic := topic, key := key, headers := [(contentEncoding, p.compressor.id)],
               body := p.compressor.Compress s }] := by
  constructor
  · unfold Producer.Publish
    rw [hser]
    simp only [hsize, if_true]
  · intro b
    unfold Producer.Publish
    cases hs : p.serialize b.payload with
    | error e => exact Or.inl rfl
    | ok s =>
      simp only
      by_cases hlim : p.MsgSizeLimit < (p.compressor.Compress s).length
      · rw [if_pos hlim]; exact Or.inl rfl
      · rw [if_neg hlim]
        cases hr : bus.reachable with
        | false => exact Or.inl rfl
        | true => exact Or.inr ⟨s, rfl, not_lt.1 hlim, rfl⟩

/-- Witness for C2: a payload of 1023 bytes, 1025 bytes once compressed by
`storedCodec`, at a limit of 1024 bytes. -/
theorem Publish_rejects_oversized_witness :
    sampleProducer.Publish { reachable := true, published := [] } "spec" "leaf-1"
        { kind := "managed-cluster-labels", generation := 5,
          payload := List.replicate 1023 0, originID := "leaf-1" } =
      (Except.error PipelineError.MessageTooLargeError,
        { reachable := true, published := [] }) :=
  (Publish_rejects_oversized sampleProducer { reachable := true, published := [] }
    "spec" "leaf-1"
    { kind := "managed-cluster-labels", generation := 5,
      payload := List.replicate 1023 0, originID := "leaf-1" }
    (List.replicate 1023 0) rfl
    (by
      show 1024 < (List.replicate 1023 (0 : Fin 256)).length + 1 + 1
      rw [List.length_replicate]
      omega)).1

/-! ## Bundle pipeline: syncer -/

theorem foldl_max_generation_ge {P : Type} (rows : List (Row P)) :
    ∀ g : Nat, g ≤ rows.foldl (fun g r => max g r.generation) g ∧
      ∀ r ∈ rows, r.generation ≤ rows.foldl (fun g r => max g r.generation) g := by
  induction rows with
  | nil => intro g; exact ⟨le_refl g, fun r hr => by cases hr⟩
  | cons r0 rest ih =>
    intro g
    obtain ⟨h1, h2⟩ := ih (max g r0.generation)
    refine ⟨le_trans (le_max_left _ _) h1, ?_⟩
    intro r hr
    rcases List.mem_cons.1 hr with rfl | hin
    · exact le_trans (le_max_right _ _) h1
    · exact h2 r hin

theorem foldl_max_generation_attained {P : Type} (rows : List (Row P)) :
    ∀ g : Nat, rows.foldl (fun g r => max g r.generation) g = g ∨
      ∃ r ∈ rows, r.generation = rows.foldl (fun g r => max g r.generation) g := by
  induction rows with
  | nil => intro g; exact Or.inl rfl
  | cons r0 rest ih =>
    intro g
    rcases ih (max g r0.generation) with h | ⟨r, hr, hrg⟩
    · rw [List.foldl_cons, h]
      rcases le_total g r0.generation with hle | hle
      · exact Or.inr ⟨r0, List.mem_cons_self _ _, (max_eq_right hle).symm⟩
      · exact Or.inl (max_eq_left hle)
    · exact Or.inr ⟨r, List.mem_cons_of_mem _ hr, hrg⟩

theorem mem_changedRows {P : Type} (rows : List (Row P)) (kind : String) (watermark : Nat)
    (r : Row P) :
    r ∈ changedRows rows kind watermark ↔
      r ∈ rows ∧ r.kind = kind ∧ watermark < r.generation := by
  unfold changedRows
  simp [List.mem_filter]

/-- C3: for a tick of kind `K` that finds changed rows, `G` being their
maximum generation (it is the generation of a changed row, no changed row has
a greater one, and it exceeds the previous watermark): if the publishing
succeeds the watermark of `K` becomes `G`, if it fails all watermarks are what
they were before the tick; the watermarks of the other kinds never change. -/
theorem syncerTick_watermark {P : Type} (reg : SyncRegistration P) (p : Producer P)
    (rows : List (Row P)) (watermarks : Watermarks) (bus : Bus)
    (hchanged : changedRows rows reg.kind (watermarks reg.kind) ≠ []) :
    ((∃ r ∈ changedRows rows reg.kind (watermarks reg.kind),
        r.generation = maxGeneration (changedRows rows reg.kind (watermarks reg.kind))) ∧
      (∀ r ∈ changedRows rows reg.kind (watermarks reg.kind),
        r.generation ≤ maxGeneration (changedRows rows reg.kind (watermarks reg.kind))) ∧
      watermarks reg.kind <
        maxGeneration (changedRows rows reg.kind (watermarks reg.kind))) ∧
    ((publishAll p reg.topic bus
          (reg.bundleBuilder (changedRows rows reg.kind (watermarks reg.kind)))).1 =
        Except.ok () →
      (syncerTick reg p (Except.ok rows) watermarks bus).1 reg.kind =
        maxGeneration (changedRows rows reg.kind (watermarks reg.kind))) ∧
    (∀ e, (publishAll p reg.topic bus
          (reg.bundleBuilder (changedRows rows reg.kind (watermarks reg.kind)))).1 =
        Except.error e →
      (syncerTick reg p (Except.ok rows) watermarks bus).1 = watermarks) ∧
    (∀ kind, kind ≠ reg.kind →
      (syncerTick reg p (Except.ok rows) watermarks bus).1 kind = watermarks kind) := by
  have hne : (changedRows rows reg.kind (watermarks reg.kind)).isEmpty = false := by
    cases hc : changedRows rows reg.kind (watermarks reg.kind) with
    | nil => exact absurd hc hchanged
    | cons r rest => rfl
  obtain ⟨r0, hr0⟩ := List.exists_mem_of_ne_nil _ hchanged
  have hr0gen : watermarks reg.kind < r0.generation :=
    ((mem_changedRows rows reg.kind (watermarks reg.kind) r0).1 hr0).2.2
  have hub := (foldl_max_generation_ge
    (changedRows rows reg.kind (watermarks reg.kind)) 0).2
  have hlt : watermarks reg.kind <
      maxGeneration (changedRows rows reg.kind (watermarks reg.kind)) :=
    lt_of_lt_of_le hr0gen (hub r0 hr0)
  refine ⟨⟨?_, hub, hlt⟩, ?_, ?_, ?_⟩
  · rcases foldl_max_generation_attained
      (changedRows rows reg.kind (watermarks reg.kind)) 0 with h | h
    · exfalso
      have : maxGeneration (changedRows rows reg.kind (watermarks reg.kind)) = 0 := h
      omega
    · exact h
  · intro hok
    unfold syncerTick
    simp only [hne, Bool.false_eq_true, if_false]
    cases hp : publishAll p reg.topic bus
        (reg.bundleBuilder (changedRows rows reg.kind (watermarks reg.kind))) with
    | mk res bus' =>
      rw [hp] at hok
      simp only at hok
      subst hok
      simp
  · intro e herr
    unfold syncerTick
    simp only [hne, Bool.false_eq_true, if_false]
    cases hp : publishAll p reg.topic bus
        (reg.bundleBuilder (changedRows rows reg.kind (watermarks reg.kind))) with
    | mk res bus' =>
      rw [hp] at herr
      simp only at herr
      subst herr
      rfl
  · intro kind hkind
    unfold syncerTick
    simp only [hne, Bool.false_eq_true, if_false]
    cases hp : publishAll p reg.topic bus
        (reg.bundleBuilder (changedRows rows reg.kind (watermarks reg.kind))) with
    | mk res bus' =>
      cases res with
      | error e => rfl
      | ok u => exact Function.update_noteq hkind _ _

end GlobalHub

namespace GlobalHub

/-- Witness for C3: the store holds one changed row of kind
"managed-cluster-labels", origin "leaf-1", generation 5, the previous
watermark is 3 and the broker is reachable: the watermark becomes the maximum
generation, 5. -/
theorem syncerTick_watermark_witness :
    (syncerTick sampleRegistration sampleProducer
        (Except.ok [{ identity := "cluster-1", kind := "managed-cluster-labels",
                      originID := "leaf-1", generation := 5, payload := [1, 2] }])
        (fun _ => 3) { reachable := true, published := [] }).1 sampleRegistration.kind =
      maxGeneration (changedRows
        [{ identity := "cluster-1", kind := "managed-cluster-labels",
           originID := "leaf-1", generation := 5, payload := ([1, 2] : Bytes) }]
        sampleRegistration.kind 3) ∧
    maxGeneration (changedRows
        [{ identity := "cluster-1", kind := "managed-cluster-labels",
           originID := "leaf-1", generation := 5, payload := ([1, 2] : Bytes) }]
        sampleRegistration.kind 3) = 5 :=
  ⟨(syncerTick_watermark sampleRegistration sampleProducer
      [{ identity := "cluster-1", kind := "managed-cluster-labels",
         originID := "leaf-1", generation := 5, payload := [1, 2] }]
      (fun _ => 3) { reachable := true, published := [] } (by decide)).2.1 rfl,
    by decide⟩

/-! ## Bundle pipeline: consumer -/

theorem Lookup_after_register {P : Type} (c c' : Consumer P) (messageKey : String)
    (factory : Unit → P) (deliveryChannel : Nat)
    (hreg : c.CustomBundleRegister messageKey factory deliveryChannel = Except.ok c') :
    c'.codecs = c.codecs ∧ c'.deserialize = c.deserialize ∧
      c'.registry = c.registry ++
        [{ messageKey := messageKey, factory := factory, deliveryChannel := deliveryChannel }] ∧
      c'.registry.find? (fun e => decide (e.messageKey = messageKey)) = some
        { messageKey := messageKey, factory := factory, deliveryChannel := deliveryChannel } := by
  unfold Consumer.CustomBundleRegister at hreg
  cases hl : c.Lookup messageKey with
  | ok e => rw [hl] at hreg; cases hreg
  | error err =>
    rw [hl] at hreg
    simp only [Except.ok.injEq] at hreg
    subst hreg
    refine ⟨rfl, rfl, rfl, ?_⟩
    unfold Consumer.Lookup at hl
    cases hf : c.registry.find? (fun e => decide (e.messageKey = messageKey)) with
    | some e => rw [hf] at hl; cases hl
    | none =>
      simp only [List.find?_append, hf, Option.none_or, List.find?_cons, decide_True,
        List.find?_nil]

theorem registerAll_registry {P : Type} (later : List (RegistryEntry P)) :
    ∀ c c' : Consumer P, c.registerAll later = Except.ok c' →
      c'.codecs = c.codecs ∧ c'.deserialize = c.deserialize ∧
        ∃ added, c'.registry = c.registry ++ added := by
  induction later with
  | nil =>
    intro c c' h
    simp only [Consumer.registerAll, Except.ok.injEq] at h
    subst h
    exact ⟨rfl, rfl, [], (List.append_nil _).symm⟩
  | cons e rest ih =>
    intro c c' h
    unfold Consumer.registerAll at h
    cases hr : c.CustomBundleRegister e.messageKey e.factory e.deliveryChannel with
    | error err => rw [hr] at h; cases h
    | ok c1 =>
      rw [hr] at h
      obtain ⟨hc, hd, hreg, -⟩ :=
        Lookup_after_register c c1 e.messageKey e.factory e.deliveryChannel hr
      obtain ⟨hc', hd', added, hadded⟩ := ih c1 c' h
      refine ⟨hc'.trans hc, hd'.trans hd,
        { messageKey := e.messageKey, factory := e.factory,
          deliveryChannel := e.deliveryChannel } :: added, ?_⟩
      rw [hadded, hreg, List.append_assoc, List.singleton_append]

/-- C4 (amended): once `CustomBundleRegister` has registered a key with a
factory and a delivery channel, and whatever keys are registered after it, for
a message with that key whose headers name a codec the consumer knows and
whose body is the compression by that codec of a serialized payload that
deserializes into the factory's container as that payload, the consumer
delivers exactly one bundle on that channel, equal to the original payload,
and nothing on any other channel. -/
theorem receive_delivers_registered {P : Type} (c c' c'' : Consumer P)
    (messageKey : String) (factory : Unit → P) (deliveryChannel : Nat)
    (later : List (RegistryEntry P))
    (codec : Codec) (serialize : P → Bytes) (payload : P)
    (msg : TransportMessage) (chans : Channels P)
    (hreg : c.CustomBundleRegister messageKey factory deliveryChannel = Except.ok c')
    (hlater : c'.registerAll later = Except.ok c'')
    (hkey : msg.key = messageKey)
    (hcodec : (msg.headers.lookup contentEncoding).bind c''.codecs = some codec)
    (hbody : msg.body = codec.Compress (serialize payload))
    (hdeser : c''.deserialize (factory ()) (serialize payload) = Except.ok payload) :
    c''.receive chans msg deliveryChannel = chans deliveryChannel ++ [payload] ∧
      ∀ n, n ≠ deliveryChannel → c''.receive chans msg n = chans n := by
  obtain ⟨-, -, -, hfind⟩ :=
    Lookup_after_register c c' messageKey factory deliveryChannel hreg
  obtain ⟨-, -, added, hadded⟩ := registerAll_registry later c' c'' hlater
  have hl : c''.Lookup msg.key = Except.ok
      { messageKey := messageKey, factory := factory, deliveryChannel := deliveryChannel } := by
    unfold Consumer.Lookup
    rw [hkey, hadded, List.find?_append, hfind]
    rfl
  have hrecv : c''.receive chans msg =
      Function.update chans deliveryChannel (chans deliveryChannel ++ [payload]) := by
    unfold Consumer.receive
    rw [hcodec]
    simp only [hbody, codec.inverse, hl, hdeser]
  rw [hrecv]
  exact ⟨Function.update_same _ _ _, fun n hn => Function.update_noteq hn _ _⟩

/-- Witness for C4 (amended): the consumer registers "managed-cluster-labels"
on channel 7 and afterwards "config" on channel 8, and receives a message of
the first key with a two-byte payload compressed by `storedCodec`. -/
theorem receive_delivers_registered_witness :
    ∃ c' c'' : Consumer Bytes,
      sampleConsumer.CustomBundleRegister "managed-cluster-labels" (fun _ => []) 7 =
        Except.ok c' ∧
      c'.registerAll
        [{ messageKey := "config", factory := fun _ => [], deliveryChannel := 8 }] =
        Except.ok c'' ∧
      c''.receive (fun _ => [])
          { topic := "spec", key := "managed-cluster-labels",
            headers := [(contentEncoding, "stored")], body := [31, 139, 1, 2] } 7 =
        [[1, 2]] :=
  ⟨_, _, rfl, rfl,
    (receive_delivers_registered sampleConsumer _ _ "managed-cluster-labels" (fun _ => []) 7
      [{ messageKey := "config", factory := fun _ => [], deliveryChannel := 8 }]
      storedLawfulCodec (fun payload => payload) [1, 2]
      { topic := "spec", key := "managed-cluster-labels",
        headers := [(contentEncoding, "stored")], body := [31, 139, 1, 2] }
      (fun _ => []) rfl rfl rfl rfl rfl rfl).1⟩

/-- C4 fails as stated: a message whose key is registered and whose body is
the compression of a serialized payload is skipped, and nothing is delivered on
the key's channel, when its headers name a codec the consumer does not know
(the body was compressed by `reversedCodec`, the consumer knows `storedCodec`
only), and when the payload is of another kind than the factory's container,
so that deserialization fails. -/
theorem receive_skips_registered_key :
    (∃ c' : Consumer Bytes,
      sampleConsumer.CustomBundleRegister "managed-cluster-labels" (fun _ => []) 7 =
        Except.ok c' ∧
      c'.receive (fun _ => [])
          { topic := "spec", key := "managed-cluster-labels",
            headers := [(contentEncoding, reversedCodec.id)],
            body := reversedCodec.Compress [1, 2] } 7 = []) ∧
    (∃ c' : Consumer SamplePayload,
      sampleTypedConsumer.CustomBundleRegister "managed-cluster-labels"
          (fun _ => SamplePayload.labels []) 7 = Except.ok c' ∧
      c'.receive (fun _ => [])
          { topic := "spec", key := "managed-cluster-labels",
            headers := [(contentEncoding, storedCodec.id)],
            body := storedCodec.Compress (sampleSerialize (SamplePayload.config [7])) } 7 =
        []) :=
  ⟨⟨_, rfl, rfl⟩, ⟨_, rfl, rfl⟩⟩

end GlobalHub

namespace GlobalHub

/-! ## Status reconciler: concrete instances -/

/-- Instance of C5: a desired entry that differs from the current one in Kind,
Name and LastTransitionTime only does not make `needUpdateComponentsStatus`
report an update. -/
theorem needUpdateComponentsStatus_updated_iff_witness :
    (needUpdateComponentsStatus
      (AList.singleton "multicluster-global-hub-manager" sampleCurrentStatus)
      (AList.singleton "multicluster-global-hub-manager" sampleDesiredStatus)).1 = false :=
  (needUpdateComponentsStatus_updated_iff
    (AList.singleton "multicluster-global-hub-manager" sampleCurrentStatus)
    (AList.singleton "multicluster-global-hub-manager" sampleDesiredStatus)).2
    (by
      intro name dcs h
      have hmem := AList.mem_lookup_iff.1 h
      simp only [AList.singleton, List.mem_singleton, Sigma.mk.inj_iff, heq_eq_eq] at hmem
      obtain ⟨hname, hdcs⟩ := hmem
      subst hname
      subst hdcs
      exact ⟨sampleCurrentStatus, by decide, rfl, rfl, rfl, rfl⟩)

/-- Instance of C6: a retention that parses to 0 months is reported as 1
month, and a retention that does not parse as a failed database condition. -/
theorem updateRetentionConditions_requests_witness :
    updateRetentionConditions sampleConfig (fun _ => Except.ok 0)
        (fun conditions c => (true, conditions ++ [c])) { Retention := "0m", Conditions := [] } =
      (true, [{ Type_ := "DatabaseConnection", Status := "True", Reason := "RetentionParsed",
                Message := "The data will be kept in the database for 1 months." }]) ∧
    ∃ msg, updateRetentionConditions sampleConfig (fun _ => Except.error "bad month")
        (fun conditions c => (true, conditions ++ [c])) { Retention := "x", Conditions := [] } =
      (true, [{ Type_ := "DatabaseConnection", Status := "False",
                Reason := "RetentionParsedFailed", Message := msg }]) :=
  ⟨((updateRetentionConditions_requests sampleConfig (fun _ => Except.ok 0)
      (fun conditions c => (true, conditions ++ [c]))
      { Retention := "0m", Conditions := [] }).1 0 rfl).1.trans (by decide),
    (updateRetentionConditions_requests sampleConfig (fun _ => Except.error "bad month")
      (fun conditions c => (true, conditions ++ [c]))
      { Retention := "x", Conditions := [] }).2 "bad month" rfl⟩

end GlobalHub
